import Mathlib

/-!
# Noesis.Javascript : JavascriptInterop

A shallow embedding of `Source/Noesis.Javascript/JavascriptInterop.cpp` (release 0.3.1):
the value conversions between the script engine and the host runtime, the wrapper
registry (`WrapObject` / `UnwrapObject`) and the overload resolution of `Invoker`.

Conventions of the embedding.

* A `System::Object^` is a `HostValue`; a `v8::Handle<v8::Value>` is a `Value`. Both
  spell a value out in full, as a value of finite nesting allows. Arrays, objects and
  collections that contain themselves exist by reference only: `ScriptHandle` and
  `HostHandle` are the same references with the heap they point into, and the two
  converters are given on them as well, with the depth of nested calls explicit.
* Floating-point payloads are carried by their exact rational value; NaN, the
  infinities and the negative zero are outside the model. No floating-point
  arithmetic is performed by the embedded code.
* Host exceptions and native crashes are explicit: a function that can raise
  returns `Except Fault _`.
* The two process-wide cells the file reads and writes (the current
  `JavascriptContext` and the static `sObjectWrapperTemplate`) are an explicit
  `Statics` record threaded through the functions that touch them.
* Code that lives outside the file (`SystemInterop`, reflection, the engine's
  property-key canonicalisation, the host time zone) is a parameter, bundled in
  `Collaborators`.
-/

namespace JavascriptInterop

/-! ## Host side -/

/-- The `System::Type` of a host value, as far as this file distinguishes types. -/
inductive SystemType
  | Boolean
  | Int16
  | Int32
  | Single
  | Double
  | String
  | DateTime
  | Array
  | Delegate
  | GenericDictionary
  | GenericList
  | Other (name : String)
  deriving DecidableEq, Repr

/-- A `System::Exception` object: its runtime type, its `Message`, and the chain of its
`InnerException`s, each by type and message, the nearest first. -/
structure SystemException where
  typeName : String
  message : String
  innerExceptions : List (String × String)
  deriving DecidableEq, Repr

/-- A `System::Object^`. `null` is `nullptr`; `object` is any instance of a type the
converter does not recognise, identified by its reference `ref`; `exception` is an
instance of an exception type (also unrecognised by the converter). An array is
one-dimensional. A dictionary is the sequence of its entries in `Keys` enumeration
order, with distinct keys. The value is spelled out in full: a collection that contains
itself has no such spelling and is a `HostHandle` with its heap. -/
inductive HostValue
  | null
  | boolean (b : Bool)
  | int16 (n : Int)
  | int32 (n : Int)
  | single (x : ℚ)
  | double (x : ℚ)
  | string (s : String)
  | dateTime (ticks : Int)
  | array (elements : List HostValue)
  | delegate (target : Nat)
  | dictionary (entries : List (HostValue × HostValue))
  | list (elements : List HostValue)
  | object (typeName : String) (ref : Nat)
  | exception (e : SystemException)

/-- The result of `iObject->GetType()`; `none` stands for the call on `nullptr`. -/
def GetType : HostValue → Option SystemType
  | .null => none
  | .boolean _ => some .Boolean
  | .int16 _ => some .Int16
  | .int32 _ => some .Int32
  | .single _ => some .Single
  | .double _ => some .Double
  | .string _ => some .String
  | .dateTime _ => some .DateTime
  | .array _ => some .Array
  | .delegate _ => some .Delegate
  | .dictionary _ => some .GenericDictionary
  | .list _ => some .GenericList
  | .object typeName _ => some (.Other typeName)
  | .exception e => some (.Other e.typeName)

/-- The comparison `iObject != nullptr`. -/
def HostValue.isNull : HostValue → Bool
  | .null => true
  | _ => false

/-- What an unboxing `safe_cast` to a mismatched type and a failed reference
`safe_cast` raise. -/
def invalidCastException : SystemException :=
  ⟨"System.InvalidCastException", "Specified cast is not valid.", []⟩

/-- What a member call through a `nullptr` handle raises. -/
def nullReferenceException : SystemException :=
  ⟨"System.NullReferenceException", "Object reference not set to an instance of an object.", []⟩

/-- What `Dictionary::default::set` raises for a `nullptr` key. -/
def argumentNullException : SystemException :=
  ⟨"System.ArgumentNullException", "Value cannot be null.", []⟩

/-- What `TimeSpan::FromMilliseconds` raises when the span does not fit. -/
def overflowException : SystemException :=
  ⟨"System.OverflowException", "TimeSpan overflowed because the duration is too long.", []⟩

/-- What `MethodBase::Invoke` raises when the invoked method raises `e`: a
`TargetInvocationException` whose `InnerException` is `e`. -/
def targetInvocationException (e : SystemException) : SystemException :=
  ⟨"System.Reflection.TargetInvocationException",
    "Exception has been thrown by the target of an invocation.",
    (e.typeName, e.message) :: e.innerExceptions⟩

/-- What the `DateTime(ticks)` constructor raises outside its range. -/
def argumentOutOfRangeException : SystemException :=
  ⟨"System.ArgumentOutOfRangeException",
    "Ticks must be between DateTime.MinValue.Ticks and DateTime.MaxValue.Ticks.", []⟩

/-- The exception `WrapObject` constructs itself: `gcnew System::Exception("No context currently active.")`. -/
def noContextException : SystemException :=
  ⟨"System.Exception", "No context currently active.", []⟩

/-- A way a call can fail to return: a host exception leaving the function, or a
native crash (a dereferenced empty handle, an unchecked cast of a foreign pointer). -/
inductive Fault
  | exception (e : SystemException)
  | crash
  deriving DecidableEq, Repr

/-! ## Script side -/

/-- Modelled from the spec: `JavascriptExternal`, the token `Context.WrapObject` returns
and the proxy keeps in its internal slot (the class is declared in
`JavascriptExternal.h`, which is not part of the file). It holds the host reference
and remembers the context that registered it; `GetObject` returns the reference. -/
structure JavascriptExternal where
  context : Nat
  object : HostValue

/-- Modelled from the spec: `wrapper->GetObject()`. -/
def JavascriptExternal.GetObject (w : JavascriptExternal) : HostValue := w.object

/-- Modelled from the spec: a `JavascriptContext` (declared in `JavascriptContext.h`),
known here only by its identity. -/
structure JavascriptContext where
  id : Nat
  deriving DecidableEq, Repr

/-- Modelled from the spec: `context->WrapObject(iObject)`, the context-scoped
registration returning the token to embed in the proxy's internal slot. -/
def JavascriptContext.WrapObject (c : JavascriptContext) (o : HostValue) : JavascriptExternal :=
  ⟨c.id, o⟩

/-- The key under which the engine stores a property: an element index or a name. -/
inductive PropertyKey
  | index (n : Nat)
  | name (s : String)
  deriving DecidableEq, Repr

/-- The native function behind a script function object. -/
inductive Callback
  | DelegateInvoker
  | Invoker
  | script (id : Nat)
  deriving DecidableEq, Repr

/-- A `v8::Handle<v8::Value>`. `empty` is the empty handle `Handle<Value>()`. `int32` is
what `v8::Int32::New` builds and `number` what `v8::Number::New` builds. A `date` holds
its time value, an integral number of milliseconds (the invalid date is outside the
model). An `object` has its internal fields
and its enumerable properties; a `function` has the callback and data it was created
with and its enumerable properties. `external` is a raw `v8::External`. The value is
spelled out in full: an array or object that contains itself has no such spelling and is
a `ScriptHandle` with its heap. -/
inductive Value
  | empty
  | undefined
  | null
  | boolean (b : Bool)
  | int32 (n : Int)
  | number (x : ℚ)
  | string (s : String)
  | array (elements : List Value)
  | date (ms : Int)
  | object (internalFields : List Value) (properties : List (PropertyKey × Value))
  | function (callback : Callback) (data : Value) (properties : List (PropertyKey × Value))
  | external (wrapper : JavascriptExternal)

/-- The handle test `IsEmpty()`. -/
def Value.IsEmpty : Value → Bool
  | .empty => true
  | _ => false

/-- A number is an int32 for the engine when its value is an integer of that range. -/
def isInt32Number (x : ℚ) : Bool :=
  decide (x.den = 1) && decide (-2147483648 ≤ x.num) && decide (x.num ≤ 2147483647)

/-- The value `names->Get(i)` returns for a stored key: element indices are numbers,
names are strings. -/
def PropertyKey.toValue : PropertyKey → Value
  | .index n => .int32 n
  | .name s => .string s

/-- The characters a NUL-terminated buffer exposes: those before the first NUL. Both
`gcnew System::String(wchar_t*)` and `v8::String::New(const char*)` read this way. -/
def cstr (s : String) : String :=
  String.mk (s.data.takeWhile (fun c => c != Char.ofNat 0))

/-- An `ObjectTemplate`: its handle identity and what `GetObjectWrapperTemplate`
configures on it. -/
structure ObjectTemplate where
  id : Nat
  internalFieldCount : Nat
  namedPropertyHandler : Bool
  indexedPropertyHandler : Bool
  deriving DecidableEq, Repr

/-- The process-wide cells: `JavascriptContext::GetCurrent()`, the static
`sObjectWrapperTemplate` (`none` when the persistent handle is empty) and the number of
templates the engine has created so far, which names the next one. -/
structure Statics where
  current : Option JavascriptContext
  sObjectWrapperTemplate : Option ObjectTemplate
  templatesCreated : Nat
  deriving DecidableEq, Repr

/-! ## Reflection and other collaborators -/

/-- A `System::Reflection::MethodInfo`: the declared parameter types and the method
itself, which called on a target with an argument array either returns a value or
raises. -/
structure MethodInfo where
  Name : String
  GetParameters : List SystemType
  body : HostValue → List HostValue → Except SystemException HostValue

/-- The call `method->Invoke(self, arguments)` of `MethodBase::Invoke`: the method runs on
the target with the argument array; its result is returned, and an exception it raises is
reported as a `TargetInvocationException` holding it as `InnerException`. The checks
reflection makes on the argument array before the call are not modelled. -/
def MethodInfo.Invoke (method : MethodInfo) (self : HostValue) (arguments : List HostValue) :
    Except SystemException HostValue :=
  match method.body self arguments with
  | .ok ret => .ok ret
  | .error e => .error (targetInvocationException e)

/-- A `System::Reflection::MemberInfo`: a method, or a member of another kind. -/
inductive MemberInfo
  | method (m : MethodInfo)
  | property (name : String)
  | field (name : String)

/-- The test `MemberType == MemberTypes::Method`. -/
def MemberInfo.isMethod : MemberInfo → Bool
  | .method _ => true
  | _ => false

/-- Code the file calls but does not contain.

* `ConvertToType` is `SystemInterop::ConvertToType`; it answers `nullptr` on failure.
* `ConvertFromSystemString` is `SystemInterop::ConvertFromSystemString` seen from the
  engine: the text the engine decodes from the buffer the function encoded.
* `ConvertFromSystemDateTime` is `SystemInterop::ConvertFromSystemDateTime`, from ticks
  to the millisecond value handed to `v8::Date::New`.
* `ToLocalTime` is `DateTime::ToLocalTime`, on ticks.
* `ToPropertyKey` is the engine's canonicalisation of the key given to `Object::Set`.
* `GetMember` is `Type::GetMember(name)`.
* `DynamicInvoke` is `Delegate::DynamicInvoke` for the delegate with the given target. -/
structure Collaborators where
  ConvertToType : HostValue → SystemType → HostValue
  ConvertFromSystemString : String → String
  ConvertFromSystemDateTime : Int → Int
  ToLocalTime : Int → Int
  ToPropertyKey : Value → PropertyKey
  GetMember : SystemType → String → List MemberInfo
  DynamicInvoke : Nat → List HostValue → Except SystemException HostValue

/-! ## The host date type -/

/-- The constant `TimeSpan::TicksPerMillisecond`. -/
def TicksPerMillisecond : Int := 10000

/-- The constant `TimeSpan::TicksPerDay`. -/
def TicksPerDay : Int := 864000000000

/-- The ticks of `DateTime::MaxValue`. -/
def MaxTicks : Int := 3155378975999999999

/-- Days before each month of a common year. -/
def DaysToMonth365 : List Int := [0, 31, 59, 90, 120, 151, 181, 212, 243, 273, 304, 334, 365]

/-- Days before each month of a leap year. -/
def DaysToMonth366 : List Int := [0, 31, 60, 91, 121, 152, 182, 213, 244, 274, 305, 335, 366]

/-- The Gregorian leap-year rule. -/
def IsLeapYear (year : Int) : Bool :=
  year % 4 == 0 && (year % 100 != 0 || year % 400 == 0)

/-- The ticks of `DateTime(year, month, day)`: whole days since 0001-01-01. -/
def DateToTicks (year : Int) (month : Nat) (day : Int) : Int :=
  let days := if IsLeapYear year then DaysToMonth366 else DaysToMonth365
  let y := year - 1
  let n := y * 365 + y / 4 - y / 100 + y / 400 + days.getD (month - 1) 0 + day - 1
  n * TicksPerDay

/-- Two's-complement wrap-around of a 64-bit signed sum. -/
def wrapInt64 (n : Int) : Int := (n + 2 ^ 63) % 2 ^ 64 - 2 ^ 63

/-- The ticks of `TimeSpan::FromMilliseconds(ms)` for an integral `ms`: the value plus or
minus one half is range-checked against `Int64::MaxValue / TicksPerMillisecond`, truncated
and scaled; an integral argument survives the truncation unchanged. -/
def FromMilliseconds (ms : Int) : Except Fault Int :=
  if 922337203685477 ≤ ms ∨ ms ≤ -922337203685477 then
    .error (.exception overflowException)
  else
    .ok (ms * TicksPerMillisecond)

/-- The constructor `DateTime(ticks)`, which checks its range. -/
def DateTimeOfTicks (ticks : Int) : Except Fault Int :=
  if ticks < 0 ∨ MaxTicks < ticks then
    .error (.exception argumentOutOfRangeException)
  else
    .ok ticks

/-! ## From the script engine to the host -/

/-- The function `JavascriptInterop::ConvertDateFromV8`, on the date's time value. -/
def ConvertDateFromV8 (E : Collaborators) (ms : Int) : Except Fault HostValue :=
  let startDate := DateToTicks 1970 1 2
  match FromMilliseconds ms with
  | .error f => .error f
  | .ok timespan =>
    match DateTimeOfTicks (wrapInt64 (timespan + startDate)) with
    | .error f => .error f
    | .ok ticks => .ok (.dateTime (E.ToLocalTime ticks))

/-- The function `JavascriptInterop::UnwrapObject`. An object or function, array or date
with no internal field, and any non-object other than a raw external, yields `nullptr`.
The cast of internal field 0 to `External` is unchecked: a field holding anything else
is a crash, as is a call through the empty handle. -/
def UnwrapObject : Value → Except Fault HostValue
  | .empty => .error .crash
  | .object internalFields _ =>
    if internalFields.length > 0 then
      match internalFields.head? with
      | some (.external wrapper) => .ok wrapper.GetObject
      | _ => .error .crash
    else
      .ok .null
  | .external wrapper => .ok wrapper.GetObject
  | _ => .ok .null

/-- The cast `safe_cast<System::String^>`: a string or `nullptr` passes, anything else
raises `InvalidCastException`. -/
def safeCastString : HostValue → Except Fault (Option String)
  | .null => .ok none
  | .string s => .ok (some s)
  | _ => .error (.exception invalidCastException)

/-- The test `key->Equals(s)` the result dictionary uses on its string keys. -/
def isStringKey (s : String) : HostValue → Bool
  | .string t => t == s
  | _ => false

/-- The indexer assignment `results[key] = value` on a `Dictionary<String^, Object^>`: a
`nullptr` key raises, an existing key is overwritten in place, a new key is added. -/
def dictionarySet (results : List (HostValue × HostValue)) (key : Option String)
    (value : HostValue) : Except Fault (List (HostValue × HostValue)) :=
  match key with
  | none => .error (.exception argumentNullException)
  | some s =>
    if results.any (fun e => isStringKey s e.1) then
      .ok (results.map (fun e => if isStringKey s e.1 then (e.1, value) else e))
    else
      .ok (results ++ [(.string s, value)])

/-- The conversion `ConvertFromV8(propName)` of a property name: `names->Get(i)` is a
number for an element index and a string for a name, so only the primitive branches of
`ConvertFromV8` are reached. -/
def propertyNameFromV8 : PropertyKey → HostValue
  | .index n => .int32 n
  | .name s => .string (cstr s)

mutual

/-- The function `JavascriptInterop::ConvertFromV8`. The tests run in the order of the
source; `IsInt32` holds of every number whose value is an int32, and `IsObject` holds of
functions too, which therefore take the object branch with no internal field. -/
def ConvertFromV8 (E : Collaborators) : Value → Except Fault HostValue
  | .empty => .error .crash
  | .null => .ok .null
  | .undefined => .ok .null
  | .boolean b => .ok (.boolean b)
  | .int32 n => .ok (.int32 n)
  | .number x => if isInt32Number x then .ok (.int32 x.num) else .ok (.double x)
  | .string s => .ok (.string (cstr s))
  | .array elements =>
    match ConvertArrayFromV8 E elements with
    | .error f => .error f
    | .ok results => .ok (.array results)
  | .date ms => ConvertDateFromV8 E ms
  | .object internalFields properties =>
    if internalFields.length > 0 then
      UnwrapObject (.object internalFields properties)
    else
      match ConvertObjectFromV8 E properties [] with
      | .error f => .error f
      | .ok results => .ok (.dictionary results)
  | .function _ _ properties =>
    match ConvertObjectFromV8 E properties [] with
    | .error f => .error f
    | .ok results => .ok (.dictionary results)
  | .external _ => .ok .null

/-- The loop of `JavascriptInterop::ConvertArrayFromV8`, over the elements in index
order. -/
def ConvertArrayFromV8 (E : Collaborators) : List Value → Except Fault (List HostValue)
  | [] => .ok []
  | element :: rest =>
    match ConvertFromV8 E element with
    | .error f => .error f
    | .ok result =>
      match ConvertArrayFromV8 E rest with
      | .error f => .error f
      | .ok results => .ok (result :: results)

/-- The loop of `JavascriptInterop::ConvertObjectFromV8`, over the property names in
enumeration order, with the dictionary built so far. -/
def ConvertObjectFromV8 (E : Collaborators) :
    List (PropertyKey × Value) → List (HostValue × HostValue) →
      Except Fault (List (HostValue × HostValue))
  | [], results => .ok results
  | (propName, propValue) :: rest, results =>
    match safeCastString (propertyNameFromV8 propName) with
    | .error f => .error f
    | .ok key =>
      match ConvertFromV8 E propValue with
      | .error f => .error f
      | .ok value =>
        match dictionarySet results key value with
        | .error f => .error f
        | .ok results1 => ConvertObjectFromV8 E rest results1

end

/-! ## The wrapper registry -/

/-- The function `JavascriptInterop::GetObjectWrapperTemplate`: the static template is
created, configured and stored on the first call, and returned as stored afterwards. -/
def GetObjectWrapperTemplate (s : Statics) : ObjectTemplate × Statics :=
  match s.sObjectWrapperTemplate with
  | some templ => (templ, s)
  | none =>
    let result : ObjectTemplate :=
      { id := s.templatesCreated, internalFieldCount := 1,
        namedPropertyHandler := true, indexedPropertyHandler := true }
    (result, { s with sObjectWrapperTemplate := some result,
                      templatesCreated := s.templatesCreated + 1 })

/-- The call `templ->NewInstance()`: a fresh object with the template's number of
internal fields, all unset, and no property of its own. -/
def NewInstance (templ : ObjectTemplate) : Value :=
  .object (List.replicate templ.internalFieldCount .undefined) []

/-- The call `object->SetInternalField(index, value)`. -/
def SetInternalField (object : Value) (index : Nat) (value : Value) : Value :=
  match object with
  | .object internalFields properties => .object (internalFields.set index value) properties
  | other => other

/-- The function `JavascriptInterop::WrapObject`: with a current context, a new instance
of the wrapper template whose internal field 0 is an external holding the token the
context returned; without one, the exception "No context currently active.". -/
def WrapObject (s : Statics) (iObject : HostValue) : Except Fault (Value × Statics) :=
  match s.current with
  | some context =>
    let (templ, s1) := GetObjectWrapperTemplate s
    let object := NewInstance templ
    .ok (SetInternalField object 0 (.external (context.WrapObject iObject)), s1)
  | none => .error (.exception noContextException)

/-! ## From the host to the script engine -/

/-- The function `JavascriptInterop::ConvertFromSystemDelegate`: the delegate is
registered with the current context (a call through `nullptr` when there is none) and
bound as the data of a function whose callback is `DelegateInvoker`. -/
def ConvertFromSystemDelegate (s : Statics) (iDelegate : HostValue) : Except Fault Value :=
  match s.current with
  | none => .error (.exception nullReferenceException)
  | some context =>
    .ok (.function .DelegateInvoker (.external (context.WrapObject iDelegate)) [])

/-- The call `object->Set(key, val)` on the properties of an object: either handle being
empty is a dereference of the empty handle; otherwise the value is stored under the
engine's canonical key, replacing a value already stored under it. -/
def objectSet (E : Collaborators) (properties : List (PropertyKey × Value)) (key val : Value) :
    Except Fault (List (PropertyKey × Value)) :=
  if key.IsEmpty || val.IsEmpty then
    .error .crash
  else
    let k := E.ToPropertyKey key
    if properties.any (fun p => decide (p.1 = k)) then
      .ok (properties.map (fun p => if p.1 = k then (k, val) else p))
    else
      .ok (properties ++ [(k, val)])

mutual

/-- The function `JavascriptInterop::ConvertToV8`. `nullptr` gives the empty handle. The
type tests run in the order of the source. The `Int16` branch unboxes the boxed 16-bit
value with `safe_cast<int>`, an unboxing to a type other than the boxed one, which raises
`InvalidCastException`. The string is transcoded and read from a NUL-terminated
buffer. -/
def ConvertToV8 (E : Collaborators) (s : Statics) : HostValue → Except Fault (Value × Statics)
  | .null => .ok (.empty, s)
  | .boolean b => .ok (.boolean b, s)
  | .int16 _ => .error (.exception invalidCastException)
  | .int32 n => .ok (.int32 n, s)
  | .single x => .ok (.number x, s)
  | .double x => .ok (.number x, s)
  | .string str => .ok (.string (cstr (E.ConvertFromSystemString str)), s)
  | .dateTime ticks => .ok (.date (E.ConvertFromSystemDateTime ticks), s)
  | .array elements =>
    match ConvertFromSystemArray E s elements with
    | .error f => .error f
    | .ok (result, s1) => .ok (.array result, s1)
  | .delegate target =>
    match ConvertFromSystemDelegate s (.delegate target) with
    | .error f => .error f
    | .ok method => .ok (method, s)
  | .dictionary entries =>
    match ConvertFromSystemDictionary E s entries [] with
    | .error f => .error f
    | .ok (properties, s1) => .ok (.object [] properties, s1)
  | .list elements =>
    match ConvertFromSystemList E s elements with
    | .error f => .error f
    | .ok (result, s1) => .ok (.array result, s1)
  | .object typeName ref => WrapObject s (.object typeName ref)
  | .exception e => WrapObject s (.exception e)

/-- The loop of `JavascriptInterop::ConvertFromSystemArray`: element `i` is converted and
stored at index `i` of a new script array; storing the empty handle dereferences it. -/
def ConvertFromSystemArray (E : Collaborators) (s : Statics) :
    List HostValue → Except Fault (List Value × Statics)
  | [] => .ok ([], s)
  | element :: rest =>
    match ConvertToV8 E s element with
    | .error f => .error f
    | .ok (value, s1) =>
      if value.IsEmpty then
        .error .crash
      else
        match ConvertFromSystemArray E s1 rest with
        | .error f => .error f
        | .ok (values, s2) => .ok (value :: values, s2)

/-- The loop of `JavascriptInterop::ConvertFromSystemList`: item `i` of the list is
converted and stored at index `i` of a new script array. -/
def ConvertFromSystemList (E : Collaborators) (s : Statics) :
    List HostValue → Except Fault (List Value × Statics)
  | [] => .ok ([], s)
  | item :: rest =>
    match ConvertToV8 E s item with
    | .error f => .error f
    | .ok (val, s1) =>
      if val.IsEmpty then
        .error .crash
      else
        match ConvertFromSystemList E s1 rest with
        | .error f => .error f
        | .ok (vals, s2) => .ok (val :: vals, s2)

/-- The loop of `JavascriptInterop::ConvertFromSystemDictionary`, over the entries in
`Keys` order, with the properties of the script object built so far. -/
def ConvertFromSystemDictionary (E : Collaborators) (s : Statics) :
    List (HostValue × HostValue) → List (PropertyKey × Value) →
      Except Fault (List (PropertyKey × Value) × Statics)
  | [], properties => .ok (properties, s)
  | (keyValue, value) :: rest, properties =>
    match ConvertToV8 E s keyValue with
    | .error f => .error f
    | .ok (key, s1) =>
      match ConvertToV8 E s1 value with
      | .error f => .error f
      | .ok (val, s2) =>
        match objectSet E properties key val with
        | .error f => .error f
        | .ok properties1 => ConvertFromSystemDictionary E s2 rest properties1

end

/-! ## The invocation dispatcher -/

/-- The `v8::Arguments` of a callback: the data bound to the function and the supplied
script arguments. -/
structure Arguments where
  Data : Value
  args : List Value

/-- The outcome of the inner loop of `Invoker` for one overload: the `arguments` array,
the `match` counter and the `failed` counter. -/
structure ParameterMatch where
  arguments : List HostValue
  matchCount : Nat
  failed : Nat

/-- The inner loop of `Invoker` ("match parameters") over the supplied arguments paired
with the declared parameter types. A `nullptr` argument is skipped and its slot of
`arguments` keeps its initial `nullptr`. For any other argument the counter goes up when
its runtime type is the declared type, then `ConvertToType` is called; a `nullptr`
answer sets `failed` and leaves the loop, the remaining slots keeping `nullptr`. -/
def matchParameters (E : Collaborators) : List (HostValue × SystemType) → ParameterMatch
  | [] => { arguments := [], matchCount := 0, failed := 0 }
  | (supplied, type) :: rest =>
    if supplied.isNull then
      let r := matchParameters E rest
      { arguments := .null :: r.arguments, matchCount := r.matchCount, failed := r.failed }
    else
      let hit := if GetType supplied = some type then 1 else 0
      let arg := E.ConvertToType supplied type
      if arg.isNull then
        { arguments := .null :: List.replicate rest.length .null, matchCount := hit, failed := 1 }
      else
        let r := matchParameters E rest
        { arguments := arg :: r.arguments, matchCount := hit + r.matchCount, failed := r.failed }

/-- The variables `bestMethod` and `bestMethodArguments`, which are assigned together
(`none` while both are `nullptr`), and `bestMethodMatchedArgs`. -/
structure BestMatch where
  best : Option (MethodInfo × List HostValue)
  bestMethodMatchedArgs : Int

/-- The state before the scan: no method, `bestMethodMatchedArgs = -1`. -/
def BestMatch.initial : BestMatch := { best := none, bestMethodMatchedArgs := -1 }

/-- The outer loop of `Invoker` ("look for best matching method") over the members in
the order `GetMember` returned them. Each member is cast to `MethodInfo`, which raises
for a member that is not a method. An overload with another parameter count is passed
over, as is one with a failed conversion; a strictly higher counter replaces the best
method; a counter equal to the number of arguments ends the scan. -/
def lookForBestMatchingMethod (E : Collaborators) (argc : Nat) (suppliedArguments : List HostValue) :
    List MemberInfo → BestMatch → Except Fault BestMatch
  | [], best => .ok best
  | .method method :: rest, best =>
    if argc = method.GetParameters.length then
      let r := matchParameters E (suppliedArguments.zip method.GetParameters)
      if r.failed > 0 then
        lookForBestMatchingMethod E argc suppliedArguments rest best
      else
        let best1 : BestMatch :=
          if (r.matchCount : Int) > best.bestMethodMatchedArgs then
            { best := some (method, r.arguments), bestMethodMatchedArgs := r.matchCount }
          else
            best
        if r.matchCount = r.arguments.length then
          .ok best1
        else
          lookForBestMatchingMethod E argc suppliedArguments rest best1
    else
      lookForBestMatchingMethod E argc suppliedArguments rest best
  | _ :: _, _ => .error (.exception invalidCastException)

/-- What a call of `Invoker` leaves behind when it returns: the handle it returns, the
value it passed to `v8::ThrowException` if it did, and the call of `MethodInfo::Invoke`
it made if it made one (the method, the target and the argument array). -/
structure Outcome where
  returned : Value
  thrown : Option Value
  invoked : Option (MethodInfo × HostValue × List HostValue)

/-- The start of `Invoker`: the data bound to the function is unwrapped and cast to an
object array, whose element 0 is the target and element 1 the member name; the runtime
type of the target is taken. Every step raises on a malformed input. -/
def objectInfoOf (data : HostValue) : Except Fault (HostValue × SystemType × String) :=
  match data with
  | .array (self :: name :: _) =>
    match GetType self with
    | none => .error (.exception nullReferenceException)
    | some type =>
      match safeCastString name with
      | .error f => .error f
      | .ok none => .error (.exception argumentNullException)
      | .ok (some memberName) => .ok (self, type, memberName)
  | .array _ => .error (.exception ⟨"System.IndexOutOfRangeException",
      "Index was outside the bounds of the array.", []⟩)
  | .null => .error (.exception nullReferenceException)
  | _ => .error (.exception invalidCastException)

/-- The end of `Invoker` after a host exception was caught: the exception object is
converted and passed to `v8::ThrowException`, and the function goes on to return
`ConvertToV8(ret)` with `ret` still `nullptr`. -/
def throwAndReturn (E : Collaborators) (s : Statics) (e : SystemException)
    (invoked : Option (MethodInfo × HostValue × List HostValue)) :
    Except Fault (Outcome × Statics) :=
  match ConvertToV8 E s (.exception e) with
  | .error f => .error f
  | .ok (exception, s1) =>
    match ConvertToV8 E s1 .null with
    | .error f => .error f
    | .ok (returned, s2) =>
      .ok ({ returned := returned, thrown := some exception, invoked := invoked }, s2)

/-- The part of `JavascriptInterop::Invoker` before the `try`: the target and the state of
`bestMethod` when the `try` is reached. When the member list is empty or its first member
is not a method the scan is skipped and the arguments are not converted. Otherwise the
supplied arguments are converted by `ConvertFromV8` in index order, which is the loop
`ConvertArrayFromV8` runs over the elements of an array. -/
def resolveOverload (E : Collaborators) (iArgs : Arguments) :
    Except Fault (HostValue × BestMatch) :=
  match UnwrapObject iArgs.Data with
  | .error f => .error f
  | .ok data =>
    match objectInfoOf data with
    | .error f => .error f
    | .ok (self, type, memberName) =>
      let members := E.GetMember type memberName
      if members.length > 0 && (members.head?.map MemberInfo.isMethod).getD false then
        match ConvertArrayFromV8 E iArgs.args with
        | .error f => .error f
        | .ok suppliedArguments =>
          match lookForBestMatchingMethod E iArgs.args.length suppliedArguments members
              BestMatch.initial with
          | .error f => .error f
          | .ok found => .ok (self, found)
      else
        .ok (self, BestMatch.initial)

/-- The function `JavascriptInterop::Invoker`. `bestMethod->Invoke` runs inside the `try`:
with `bestMethod` still `nullptr` the call raises `NullReferenceException`, which the
`catch` handles like an exception raised by the method. -/
def Invoker (E : Collaborators) (s : Statics) (iArgs : Arguments) :
    Except Fault (Outcome × Statics) :=
  match resolveOverload E iArgs with
  | .error f => .error f
  | .ok (self, found) =>
    match found.best with
    | none => throwAndReturn E s nullReferenceException none
    | some (bestMethod, bestMethodArguments) =>
      match bestMethod.Invoke self bestMethodArguments with
      | .error e =>
        throwAndReturn E s e (some (bestMethod, self, bestMethodArguments))
      | .ok ret =>
        match ConvertToV8 E s ret with
        | .error f => .error f
        | .ok (returned, s1) =>
          .ok ({ returned := returned, thrown := none,
                 invoked := some (bestMethod, self, bestMethodArguments) }, s1)

/-! ## The callable bridge -/

/-- The function `JavascriptInterop::DelegateInvoker`. The data bound to the function is
cast to an external without a check and its payload is taken as the delegate; the
arguments are converted by `ConvertFromV8` in index order (the loop `ConvertArrayFromV8`
runs over the elements of an array); `DynamicInvoke` is called outside any `try`, so an
exception it raises leaves the function; its result is converted by `ConvertToV8`. The
`static_cast` to `Delegate` is unchecked: a payload that is no delegate is a crash, and a
`nullptr` payload raises on the call. -/
def DelegateInvoker (E : Collaborators) (s : Statics) (info : Arguments) :
    Except Fault (Value × Statics) :=
  match info.Data with
  | .external wrapper =>
    match ConvertArrayFromV8 E info.args with
    | .error f => .error f
    | .ok args =>
      match wrapper.GetObject with
      | .delegate target =>
        match E.DynamicInvoke target args with
        | .error e => .error (.exception e)
        | .ok value => ConvertToV8 E s value
      | .null => .error (.exception nullReferenceException)
      | _ => .error .crash
  | _ => .error .crash

/-! ## The scan without the early exit -/

/-- The outer loop of `Invoker` with its last statement, the `break` taken when every
argument matched exactly, removed: every overload is examined. Used to state that the
early exit does not change the selection. -/
def lookForBestMatchingMethodWithoutBreak (E : Collaborators) (argc : Nat)
    (suppliedArguments : List HostValue) : List MemberInfo → BestMatch → Except Fault BestMatch
  | [], best => .ok best
  | .method method :: rest, best =>
    if argc = method.GetParameters.length then
      let r := matchParameters E (suppliedArguments.zip method.GetParameters)
      if r.failed > 0 then
        lookForBestMatchingMethodWithoutBreak E argc suppliedArguments rest best
      else
        let best1 : BestMatch :=
          if (r.matchCount : Int) > best.bestMethodMatchedArgs then
            { best := some (method, r.arguments), bestMethodMatchedArgs := r.matchCount }
          else
            best
        lookForBestMatchingMethodWithoutBreak E argc suppliedArguments rest best1
    else
      lookForBestMatchingMethodWithoutBreak E argc suppliedArguments rest best
  | _ :: _, _ => .error (.exception invalidCastException)

/-! ## Switching contexts -/

/-- Modelled from the spec: the session layer making another context current (or none).
It is code outside the file; nothing in the file is called, so the static template is
left as it is. -/
def Statics.withCurrent (s : Statics) (context : Option JavascriptContext) : Statics :=
  { s with current := context }

/-! ## Script values by reference

A `Value` spells a script value out in full, which is possible for a value of finite
nesting only. In the engine an array, an object and a function are on the heap and a
handle holds their address, so that an array may hold a handle to itself. The definitions
below are the same functions read on handles; a call that does not end returns `none`
at every recursion depth. -/

/-- The static template, once set, is the one `GetObjectWrapperTemplate` configures: one
internal field and both property handlers. Only that function writes the static, so every
state the program reaches is of this kind. -/
def Statics.wellFormed (s : Statics) : Bool :=
  match s.sObjectWrapperTemplate with
  | none => true
  | some templ =>
    templ.internalFieldCount == 1 && templ.namedPropertyHandler && templ.indexedPropertyHandler

/-- The host object a script sees when it catches what `Invoker` threw: the object behind
the thrown proxy. -/
def Outcome.caught (o : Outcome) : Option HostValue :=
  match o.thrown with
  | none => none
  | some exception =>
    match UnwrapObject exception with
    | .ok object => some object
    | .error _ => none

/-- Every argument coerces: each supplied argument that is not `nullptr` gets a
non-`nullptr` answer from `ConvertToType` for its declared parameter type. -/
def coercible (E : Collaborators) (pairs : List (HostValue × SystemType)) : Bool :=
  pairs.all (fun p => p.1.isNull || !(E.ConvertToType p.1 p.2).isNull)

/-- An overload is a candidate for the supplied arguments: its parameter count is the
argument count and every argument coerces. -/
def isCandidate (E : Collaborators) (suppliedArguments : List HostValue) (m : MethodInfo) : Bool :=
  decide (suppliedArguments.length = m.GetParameters.length) &&
    coercible E (suppliedArguments.zip m.GetParameters)

/-- The exact-type match score: the number of arguments whose runtime type is the
declared parameter type. -/
def exactMatches (pairs : List (HostValue × SystemType)) : Nat :=
  pairs.countP (fun p => decide (GetType p.1 = some p.2))

/-- The match score of an overload for the supplied arguments. -/
def matchScore (suppliedArguments : List HostValue) (m : MethodInfo) : Nat :=
  exactMatches (suppliedArguments.zip m.GetParameters)

/-- The arguments coerced to the declared parameter types, in argument order; a
`nullptr` argument stays `nullptr`. -/
def coerceArguments (E : Collaborators) (pairs : List (HostValue × SystemType)) : List HostValue :=
  pairs.map (fun p => if p.1.isNull then .null else E.ConvertToType p.1 p.2)

/-! ## Notions used to state the conversion properties -/

/-- The time values `ConvertDateFromV8` can turn into a host `DateTime`: those whose
distance from the anchor, in ticks, lands between `DateTime::MinValue` and
`DateTime::MaxValue`. -/
def dateInRange (ms : Int) : Bool :=
  decide (0 ≤ ms * TicksPerMillisecond + DateToTicks 1970 1 2) &&
    decide (ms * TicksPerMillisecond + DateToTicks 1970 1 2 ≤ MaxTicks)

/-- True of a property stored under a name, false of one stored under an element
index. -/
def PropertyKey.isName : PropertyKey → Bool
  | .name _ => true
  | .index _ => false

mutual

/-- The script values `ConvertFromV8` converts without raising: no empty handle, every
date in range, every object with internal fields holding an external in field 0, and
every property of an object or function without internal fields stored under a name and
holding such a value; the same for the elements of an array. -/
def Value.isConvertible : Value → Bool
  | .empty => false
  | .undefined => true
  | .null => true
  | .boolean _ => true
  | .int32 _ => true
  | .number _ => true
  | .string _ => true
  | .array elements => Value.allConvertible elements
  | .date ms => dateInRange ms
  | .object [] properties => Value.propertiesConvertible properties
  | .object (.external _ :: _) _ => true
  | .object (_ :: _) _ => false
  | .function _ _ properties => Value.propertiesConvertible properties
  | .external _ => true

/-- Every element is convertible. -/
def Value.allConvertible : List Value → Bool
  | [] => true
  | element :: rest => element.isConvertible && Value.allConvertible rest

/-- Every property is stored under a name and holds a convertible value. -/
def Value.propertiesConvertible : List (PropertyKey × Value) → Bool
  | [] => true
  | (propName, propValue) :: rest =>
    propName.isName && propValue.isConvertible && Value.propertiesConvertible rest

end

mutual

/-- The host values `ConvertToV8` converts to a non-empty handle under an active context:
not `nullptr`, not a boxed `Int16`, and, for an array, a list or a dictionary, made of
such values only (keys and values alike). -/
def HostValue.isMarshallable : HostValue → Bool
  | .null => false
  | .boolean _ => true
  | .int16 _ => false
  | .int32 _ => true
  | .single _ => true
  | .double _ => true
  | .string _ => true
  | .dateTime _ => true
  | .array elements => HostValue.allMarshallable elements
  | .delegate _ => true
  | .dictionary entries => HostValue.entriesMarshallable entries
  | .list elements => HostValue.allMarshallable elements
  | .object _ _ => true
  | .exception _ => true

/-- Every element is marshallable. -/
def HostValue.allMarshallable : List HostValue → Bool
  | [] => true
  | element :: rest => element.isMarshallable && HostValue.allMarshallable rest

/-- Every key and every value is marshallable. -/
def HostValue.entriesMarshallable : List (HostValue × HostValue) → Bool
  | [] => true
  | (key, value) :: rest =>
    key.isMarshallable && value.isMarshallable && HostValue.entriesMarshallable rest

end

/-- The string has no NUL character, so that a NUL-terminated buffer exposes all of
it. -/
def isNulFree (s : String) : Bool :=
  s.data.all (fun c => c != Char.ofNat 0)

/-- The string reaches the engine as it is: it has no NUL character and the transcoding
keeps it. -/
def isTransmitted (E : Collaborators) (s : String) : Bool :=
  isNulFree s && decide (E.ConvertFromSystemString s = s)

mutual

/-- The host values that come back from the script engine as they went: booleans, 32-bit
integers, doubles whose value is not an int32, strings that reach the engine as they are,
arrays of such values, and dictionaries of such values whose keys are distinct such
strings that the engine stores as names. -/
def HostValue.isRoundTrippable (E : Collaborators) : HostValue → Bool
  | .null => false
  | .boolean _ => true
  | .int16 _ => false
  | .int32 _ => true
  | .single _ => false
  | .double x => !isInt32Number x
  | .string s => isTransmitted E s
  | .dateTime _ => false
  | .array elements => HostValue.allRoundTrippable E elements
  | .delegate _ => false
  | .dictionary entries => HostValue.entriesRoundTrippable E entries
  | .list _ => false
  | .object _ _ => false
  | .exception _ => false

/-- Every element is round-trippable. -/
def HostValue.allRoundTrippable (E : Collaborators) : List HostValue → Bool
  | [] => true
  | element :: rest => element.isRoundTrippable E && HostValue.allRoundTrippable E rest

/-- Every entry has a string key that reaches the engine as it is, that the engine stores
as that name and that no later entry repeats, and a round-trippable value. -/
def HostValue.entriesRoundTrippable (E : Collaborators) : List (HostValue × HostValue) → Bool
  | [] => true
  | (key, value) :: rest =>
    (match key with
      | .string s =>
        isTransmitted E s && decide (E.ToPropertyKey (.string s) = .name s) &&
          !(rest.any (fun e => isStringKey s e.1))
      | _ => false) &&
    value.isRoundTrippable E && HostValue.entriesRoundTrippable E rest

end

/-! ## A concrete host, used to instantiate the properties -/

/-- An instance of `ConvertToType`: a value of the requested type is returned as it is, a
boolean converts to a 32-bit integer and to a string, and nothing else converts. -/
def exampleConvertToType (v : HostValue) (t : SystemType) : HostValue :=
  if GetType v = some t then v
  else
    match v, t with
    | .boolean b, .Int32 => .int32 (if b then 1 else 0)
    | .boolean b, .String => .string (if b then "True" else "False")
    | _, _ => .null

/-- An instance of the collaborators for a type whose members of any name are `members`:
strings are transcoded without loss, dates count from 1970-01-01, the local time zone is
UTC, and the engine keeps a string key as a name and a non-negative integer key as an
index. -/
def exampleCollaborators (members : List MemberInfo) : Collaborators :=
  { ConvertToType := exampleConvertToType
    ConvertFromSystemString := fun str => str
    ConvertFromSystemDateTime := fun ticks => (ticks - DateToTicks 1970 1 1) / TicksPerMillisecond
    ToLocalTime := fun ticks => ticks
    ToPropertyKey := fun key =>
      match key with
      | .string s => .name s
      | .int32 n => .index n.toNat
      | _ => .name "[object Object]"
    GetMember := fun _ _ => members
    DynamicInvoke := fun _ _ => .ok .null }

/-- A state with context 1 current and the wrapper template not yet created. -/
def exampleStatics : Statics :=
  { current := some ⟨1⟩, sObjectWrapperTemplate := none, templatesCreated := 0 }

/-- The data bound to a method function of the host object `Host#7`. -/
def exampleBinding (memberName : String) : Value :=
  .external ⟨1, .array [.object "Host" 7, .string memberName]⟩

/-- The overload `Foo(Int32)`. -/
def fooInt : MethodInfo :=
  { Name := "Foo", GetParameters := [.Int32], body := fun _ _ => .ok (.string "Foo(Int32)") }

/-- The overload `Foo(String)`. -/
def fooString : MethodInfo :=
  { Name := "Foo", GetParameters := [.String], body := fun _ _ => .ok (.string "Foo(String)") }

/-- The method `Add(Int32, Int32) -> Int32`. -/
def addMethod : MethodInfo :=
  { Name := "Add", GetParameters := [.Int32, .Int32],
    body := fun _ arguments =>
      match arguments with
      | [.int32 a, .int32 b] => .ok (.int32 (a + b))
      | _ => .error ⟨"System.ArgumentException", "Object cannot be converted to Int32.", []⟩ }

/-- A method of one `Int32` parameter that raises with the given message. -/
def failingMethod (message : String) : MethodInfo :=
  { Name := "Check", GetParameters := [.Int32],
    body := fun _ _ => .error ⟨"System.ArgumentException", message, []⟩ }

/-- The example collaborators with one delegate behaviour: `DynamicInvoke` on any delegate
is `invoke`. -/
def exampleDelegateCollaborators
    (invoke : List HostValue → Except SystemException HostValue) : Collaborators :=
  { exampleCollaborators [] with DynamicInvoke := fun _ => invoke }

/-- A delegate `(a, b) => a + b` on 32-bit integers. -/
def addDelegate (arguments : List HostValue) : Except SystemException HostValue :=
  match arguments with
  | [.int32 a, .int32 b] => .ok (.int32 (a + b))
  | _ => .error ⟨"System.Reflection.TargetParameterCountException",
      "Parameter count mismatch.", []⟩

/-- A delegate that raises `ArgumentException` with the given message, as
`DynamicInvoke` reports it. -/
def failingDelegate (message : String) (_ : List HostValue) : Except SystemException HostValue :=
  .error (targetInvocationException ⟨"System.ArgumentException", message, []⟩)

theorem matchParameters_length (E : Collaborators) (pairs : List (HostValue × SystemType)) :
    (matchParameters E pairs).arguments.length = pairs.length := by
  induction pairs with
  | nil => simp [matchParameters]
  | cons p rest ih =>
    obtain ⟨a, t⟩ := p
    unfold matchParameters
    by_cases h1 : a.isNull = true
    · simp [h1, ih]
    · by_cases h2 : (E.ConvertToType a t).isNull = true
      · simp [h1, h2]
      · simp [h1, h2, ih]

theorem matchParameters_failed (E : Collaborators) (pairs : List (HostValue × SystemType)) :
    (matchParameters E pairs).failed = 0 ↔ coercible E pairs = true := by
  induction pairs with
  | nil => simp [matchParameters, coercible]
  | cons p rest ih =>
    obtain ⟨a, t⟩ := p
    unfold matchParameters
    by_cases h1 : a.isNull = true
    · simp only [h1, if_true]
      rw [ih]
      simp [coercible, h1]
    · by_cases h2 : (E.ConvertToType a t).isNull = true
      · simp [h1, h2, coercible]
      · simp only [Bool.not_eq_true] at h1 h2
        simp only [h1, h2, Bool.false_eq_true, if_false]
        rw [ih]
        simp [coercible, h1, h2]

theorem matchParameters_of_coercible (E : Collaborators) (pairs : List (HostValue × SystemType))
    (h : coercible E pairs = true) :
    (matchParameters E pairs).matchCount = exactMatches pairs ∧
      (matchParameters E pairs).arguments = coerceArguments E pairs := by
  induction pairs with
  | nil => simp [matchParameters, exactMatches, coerceArguments]
  | cons p rest ih =>
    obtain ⟨a, t⟩ := p
    have hrest : coercible E rest = true := by
      simp only [coercible, List.all_cons, Bool.and_eq_true] at h
      exact h.2
    obtain ⟨ih1, ih2⟩ := ih hrest
    unfold matchParameters
    by_cases h1 : a.isNull = true
    · have hty : GetType a = none := by
        cases a <;> simp [HostValue.isNull] at h1
        rfl
      simp only [h1, if_true]
      refine ⟨?_, ?_⟩
      · rw [ih1]
        simp [exactMatches, hty]
      · rw [ih2]
        simp [coerceArguments, h1]
    · have h2 : (E.ConvertToType a t).isNull = false := by
        simp only [coercible, List.all_cons, Bool.and_eq_true, Bool.or_eq_true] at h
        rcases h.1 with h3 | h3
        · exact absurd h3 h1
        · simpa using h3
      simp only [Bool.not_eq_true] at h1
      simp only [h1, h2, if_false, Bool.false_eq_true]
      refine ⟨?_, ?_⟩
      · rw [ih1]
        by_cases h4 : GetType a = some t
        · simp [exactMatches, h4, List.countP_cons, Nat.add_comm]
        · simp [exactMatches, h4, List.countP_cons]
      · rw [ih2]
        simp [coerceArguments, h1]

theorem exactMatches_le (pairs : List (HostValue × SystemType)) :
    exactMatches pairs ≤ pairs.length := by
  unfold exactMatches
  exact List.countP_le_length _

/-! ## Lemmas on the outer loop -/

theorem zip_length_of_isCandidate (E : Collaborators) (suppliedArguments : List HostValue)
    (m : MethodInfo) (h : isCandidate E suppliedArguments m = true) :
    (suppliedArguments.zip m.GetParameters).length = suppliedArguments.length := by
  simp only [isCandidate, Bool.and_eq_true, decide_eq_true_eq] at h
  simp [List.length_zip, h.1]

theorem matchScore_le_of_isCandidate (E : Collaborators) (suppliedArguments : List HostValue)
    (m : MethodInfo) (h : isCandidate E suppliedArguments m = true) :
    matchScore suppliedArguments m ≤ suppliedArguments.length := by
  have h1 := exactMatches_le (suppliedArguments.zip m.GetParameters)
  rw [zip_length_of_isCandidate E suppliedArguments m h] at h1
  exact h1

/-- The scan from any starting state either leaves the state untouched, every candidate
scoring no more than the starting score, or ends on the first candidate of highest score,
which beats the starting score. -/
theorem lookForBestMatchingMethod_spec (E : Collaborators) (suppliedArguments : List HostValue)
    (methods : List MethodInfo) (best : BestMatch) :
    (lookForBestMatchingMethod E suppliedArguments.length suppliedArguments
          (methods.map MemberInfo.method) best = .ok best ∧
        ∀ m ∈ methods, isCandidate E suppliedArguments m = true →
          (matchScore suppliedArguments m : Int) ≤ best.bestMethodMatchedArgs) ∨
    ∃ pre m post, methods = pre ++ m :: post ∧
      isCandidate E suppliedArguments m = true ∧
      lookForBestMatchingMethod E suppliedArguments.length suppliedArguments
          (methods.map MemberInfo.method) best =
        .ok { best := some (m, coerceArguments E (suppliedArguments.zip m.GetParameters)),
              bestMethodMatchedArgs := matchScore suppliedArguments m } ∧
      best.bestMethodMatchedArgs < (matchScore suppliedArguments m : Int) ∧
      (∀ m1 ∈ pre, isCandidate E suppliedArguments m1 = true →
        matchScore suppliedArguments m1 < matchScore suppliedArguments m) ∧
      (∀ m1 ∈ post, isCandidate E suppliedArguments m1 = true →
        matchScore suppliedArguments m1 ≤ matchScore suppliedArguments m) := by
  induction methods generalizing best with
  | nil =>
    left
    simp [lookForBestMatchingMethod]
  | cons m rest ih =>
    simp only [List.map_cons, lookForBestMatchingMethod]
    by_cases hcand : isCandidate E suppliedArguments m = true
    · -- the overload is a candidate
      have hlen : suppliedArguments.length = m.GetParameters.length := by
        simp only [isCandidate, Bool.and_eq_true, decide_eq_true_eq] at hcand
        exact hcand.1
      have hco : coercible E (suppliedArguments.zip m.GetParameters) = true := by
        simp only [isCandidate, Bool.and_eq_true, decide_eq_true_eq] at hcand
        exact hcand.2
      have hfailed := (matchParameters_failed E (suppliedArguments.zip m.GetParameters)).2 hco
      obtain ⟨hcount, hargs⟩ := matchParameters_of_coercible E _ hco
      have halen := matchParameters_length E (suppliedArguments.zip m.GetParameters)
      have hzip := zip_length_of_isCandidate E suppliedArguments m hcand
      have hscore : (matchParameters E (suppliedArguments.zip m.GetParameters)).matchCount =
          matchScore suppliedArguments m := hcount
      simp only [hlen, if_true, hfailed, gt_iff_lt, lt_self_iff_false, if_false]
      rw [halen, hscore, hargs]
      rw [← hlen, hzip]
      by_cases hfull : matchScore suppliedArguments m = suppliedArguments.length
      · -- every argument matched exactly: the scan stops here
        simp only [hfull, if_true]
        by_cases hup : best.bestMethodMatchedArgs < (suppliedArguments.length : Int)
        · right
          refine ⟨[], m, rest, rfl, hcand, ?_, ?_, ?_, ?_⟩
          · simp [hup, hfull]
          · rw [hfull]; exact hup
          · intro m1 hm1; simp at hm1
          · intro m1 _ hc1
            rw [hfull]
            exact matchScore_le_of_isCandidate E suppliedArguments m1 hc1
        · left
          refine ⟨by simp [hup], ?_⟩
          intro m1 hm1 hc1
          have h1 := matchScore_le_of_isCandidate E suppliedArguments m1 hc1
          have h2 : (matchScore suppliedArguments m1 : Int) ≤ (suppliedArguments.length : Int) := by
            exact_mod_cast h1
          omega
      · -- the scan goes on with the possibly updated state
        simp only [hfull, if_false]
        by_cases hup : best.bestMethodMatchedArgs < (matchScore suppliedArguments m : Int)
        · simp only [hup, if_true]
          rcases ih { best := some (m, coerceArguments E (suppliedArguments.zip m.GetParameters)),
                      bestMethodMatchedArgs := matchScore suppliedArguments m } with
            ⟨heq, hall⟩ | ⟨pre, m2, post, hsplit, hc2, heq, hgt, hpre, hpost⟩
          · right
            refine ⟨[], m, rest, rfl, hcand, heq, hup, ?_, ?_⟩
            · intro m1 hm1; simp at hm1
            · intro m1 hm1 hc1
              have := hall m1 hm1 hc1
              simp only at this
              exact_mod_cast this
          · right
            refine ⟨m :: pre, m2, post, by simp [hsplit], hc2, heq, ?_, ?_, hpost⟩
            · simp only at hgt
              omega
            · intro m1 hm1 hc1
              simp only [List.mem_cons] at hm1
              rcases hm1 with rfl | hm1
              · simp only at hgt
                exact_mod_cast hgt
              · exact hpre m1 hm1 hc1
        · simp only [hup, if_false]
          rcases ih best with ⟨heq, hall⟩ | ⟨pre, m2, post, hsplit, hc2, heq, hgt, hpre, hpost⟩
          · left
            refine ⟨heq, ?_⟩
            intro m1 hm1 hc1
            simp only [List.mem_cons] at hm1
            rcases hm1 with rfl | hm1
            · omega
            · exact hall m1 hm1 hc1
          · right
            refine ⟨m :: pre, m2, post, by simp [hsplit], hc2, heq, hgt, ?_, hpost⟩
            intro m1 hm1 hc1
            simp only [List.mem_cons] at hm1
            rcases hm1 with rfl | hm1
            · have : (matchScore suppliedArguments m1 : Int) < (matchScore suppliedArguments m2 : Int) := by
                omega
              exact_mod_cast this
            · exact hpre m1 hm1 hc1
    · -- the overload is passed over
      have hskip : (if suppliedArguments.length = m.GetParameters.length then
            if (matchParameters E (suppliedArguments.zip m.GetParameters)).failed > 0 then
              lookForBestMatchingMethod E suppliedArguments.length suppliedArguments
                (rest.map MemberInfo.method) best
            else
              if (matchParameters E (suppliedArguments.zip m.GetParameters)).matchCount =
                  (matchParameters E (suppliedArguments.zip m.GetParameters)).arguments.length then
                .ok (if ((matchParameters E (suppliedArguments.zip m.GetParameters)).matchCount : Int) >
                    best.bestMethodMatchedArgs then
                  { best := some (m, (matchParameters E (suppliedArguments.zip m.GetParameters)).arguments),
                    bestMethodMatchedArgs := (matchParameters E (suppliedArguments.zip m.GetParameters)).matchCount }
                  else best)
              else
                lookForBestMatchingMethod E suppliedArguments.length suppliedArguments
                  (rest.map MemberInfo.method)
                  (if ((matchParameters E (suppliedArguments.zip m.GetParameters)).matchCount : Int) >
                    best.bestMethodMatchedArgs then
                  { best := some (m, (matchParameters E (suppliedArguments.zip m.GetParameters)).arguments),
                    bestMethodMatchedArgs := (matchParameters E (suppliedArguments.zip m.GetParameters)).matchCount }
                  else best)
          else
            lookForBestMatchingMethod E suppliedArguments.length suppliedArguments
              (rest.map MemberInfo.method) best) =
          lookForBestMatchingMethod E suppliedArguments.length suppliedArguments
              (rest.map MemberInfo.method) best := by
        by_cases hlen : suppliedArguments.length = m.GetParameters.length
        · have hco : ¬ coercible E (suppliedArguments.zip m.GetParameters) = true := by
            intro hco
            apply hcand
            simp [isCandidate, hlen, hco]
          have hf : (matchParameters E (suppliedArguments.zip m.GetParameters)).failed > 0 := by
            have := (matchParameters_failed E (suppliedArguments.zip m.GetParameters)).not.2 hco
            omega
          simp [hlen, hf]
        · simp [hlen]
      rw [hskip]
      rcases ih best with ⟨heq, hall⟩ | ⟨pre, m2, post, hsplit, hc2, heq, hgt, hpre, hpost⟩
      · left
        refine ⟨heq, ?_⟩
        intro m1 hm1 hc1
        simp only [List.mem_cons] at hm1
        rcases hm1 with rfl | hm1
        · exact absurd hc1 hcand
        · exact hall m1 hm1 hc1
      · right
        refine ⟨m :: pre, m2, post, by simp [hsplit], hc2, heq, hgt, ?_, hpost⟩
        intro m1 hm1 hc1
        simp only [List.mem_cons] at hm1
        rcases hm1 with rfl | hm1
        · exact absurd hc1 hcand
        · exact hpre m1 hm1 hc1

/-- On a well-formed binding (an external holding the pair of target and member name)
whose member list starts with a method, `resolveOverload` converts the arguments and
runs the scan from the initial state. -/
theorem resolveOverload_eq_scan (E : Collaborators) (k : Nat) (self : HostValue)
    (type : SystemType) (memberName : String) (args : List Value) (first : MethodInfo)
    (others : List MemberInfo) (hself : GetType self = some type)
    (hmembers : E.GetMember type memberName = .method first :: others) :
    resolveOverload E ⟨.external ⟨k, .array [self, .string memberName]⟩, args⟩ =
      match ConvertArrayFromV8 E args with
      | .error f => .error f
      | .ok suppliedArguments =>
        match lookForBestMatchingMethod E args.length suppliedArguments
            (.method first :: others) BestMatch.initial with
        | .error f => .error f
        | .ok found => .ok (self, found) := by
  simp [resolveOverload, UnwrapObject, JavascriptExternal.GetObject, objectInfoOf, hself,
    safeCastString, hmembers, MemberInfo.isMethod]

/-- C1. Invoker overload selection: for every list of same-named overloads and every
argument list, the scan of `Invoker` returns; when no overload is a candidate (parameter
count equal to the argument count and every argument coercing) it selects none, and
otherwise it selects a candidate of the highest exact-type match score, every candidate
declared before it scoring strictly less, together with the arguments coerced for it. -/
theorem Invoker_selects_first_highest_score (E : Collaborators)
    (suppliedArguments : List HostValue) (methods : List MethodInfo) :
    ((∀ m ∈ methods, isCandidate E suppliedArguments m = false) ∧
      lookForBestMatchingMethod E suppliedArguments.length suppliedArguments
        (methods.map MemberInfo.method) BestMatch.initial = .ok BestMatch.initial) ∨
    ∃ pre m post, methods = pre ++ m :: post ∧
      isCandidate E suppliedArguments m = true ∧
      lookForBestMatchingMethod E suppliedArguments.length suppliedArguments
          (methods.map MemberInfo.method) BestMatch.initial =
        .ok { best := some (m, coerceArguments E (suppliedArguments.zip m.GetParameters)),
              bestMethodMatchedArgs := matchScore suppliedArguments m } ∧
      (∀ m1 ∈ pre, isCandidate E suppliedArguments m1 = true →
        matchScore suppliedArguments m1 < matchScore suppliedArguments m) ∧
      (∀ m1 ∈ post, isCandidate E suppliedArguments m1 = true →
        matchScore suppliedArguments m1 ≤ matchScore suppliedArguments m) := by
  rcases lookForBestMatchingMethod_spec E suppliedArguments methods BestMatch.initial with
    ⟨heq, hall⟩ | ⟨pre, m, post, hsplit, hc, heq, _, hpre, hpost⟩
  · left
    refine ⟨?_, heq⟩
    intro m hm
    by_contra hcand
    have hc : isCandidate E suppliedArguments m = true := by simpa using hcand
    have := hall m hm hc
    simp only [BestMatch.initial] at this
    omega
  · right
    exact ⟨pre, m, post, hsplit, hc, heq, hpre, hpost⟩

/-- C3. Overload determinism: for the two overloads `Foo(Int32)` and `Foo(String)`, in
either declaration order and assuming that coercing a value to its own type succeeds,
`Invoker` called with one integer argument selects `Foo(Int32)`, called with one string
argument selects `Foo(String)`, and called with an argument that is exactly neither type
but coerces to both selects the overload declared first. -/
theorem Invoker_Foo_overloads (E : Collaborators) (forInt forString : MethodInfo)
    (hInt : forInt.GetParameters = [.Int32]) (hString : forString.GetParameters = [.String])
    (hown : ∀ v t, GetType v = some t → (E.ConvertToType v t).isNull = false)
    (k : Nat) (self : HostValue) (type : SystemType) (memberName : String)
    (hself : GetType self = some type) (first second : MethodInfo)
    (horder : (first = forInt ∧ second = forString) ∨ (first = forString ∧ second = forInt))
    (hmembers : E.GetMember type memberName = [.method first, .method second]) :
    (∀ n : Int,
      resolveOverload E ⟨.external ⟨k, .array [self, .string memberName]⟩, [.int32 n]⟩ =
        .ok (self, { best := some (forInt, [E.ConvertToType (.int32 n) .Int32]),
                     bestMethodMatchedArgs := 1 })) ∧
    (∀ str : String,
      resolveOverload E ⟨.external ⟨k, .array [self, .string memberName]⟩, [.string str]⟩ =
        .ok (self, { best := some (forString, [E.ConvertToType (.string (cstr str)) .String]),
                     bestMethodMatchedArgs := 1 })) ∧
    (∀ (v : Value) (a : HostValue), ConvertFromV8 E v = .ok a →
      GetType a ≠ some .Int32 → GetType a ≠ some .String →
      coercible E [(a, .Int32)] = true → coercible E [(a, .String)] = true →
        resolveOverload E ⟨.external ⟨k, .array [self, .string memberName]⟩, [v]⟩ =
          .ok (self, { best := some (first, coerceArguments E ([a].zip first.GetParameters)),
                       bestMethodMatchedArgs := 0 })) := by
  have hi : ∀ n : Int, (E.ConvertToType (.int32 n) .Int32).isNull = false :=
    fun n => hown _ _ rfl
  have hs : ∀ str : String, (E.ConvertToType (.string str) .String).isNull = false :=
    fun str => hown _ _ rfl
  refine ⟨?_, ?_, ?_⟩
  · intro n
    have hn : (HostValue.int32 n).isNull = false := rfl
    rw [resolveOverload_eq_scan E k self type memberName _ first [.method second] hself hmembers]
    rcases horder with ⟨rfl, rfl⟩ | ⟨rfl, rfl⟩
    · simp [ConvertArrayFromV8, ConvertFromV8, lookForBestMatchingMethod, matchParameters, hInt,
        hn, GetType, hi, BestMatch.initial]
    · by_cases hc : (E.ConvertToType (.int32 n) .String).isNull = true
      · simp [ConvertArrayFromV8, ConvertFromV8, lookForBestMatchingMethod, matchParameters, hInt,
          hString, hn, GetType, hi, BestMatch.initial, hc]
      · simp [ConvertArrayFromV8, ConvertFromV8, lookForBestMatchingMethod, matchParameters, hInt,
          hString, hn, GetType, hi, BestMatch.initial, hc]
  · intro str
    have hn : (HostValue.string (cstr str)).isNull = false := rfl
    rw [resolveOverload_eq_scan E k self type memberName _ first [.method second] hself hmembers]
    rcases horder with ⟨rfl, rfl⟩ | ⟨rfl, rfl⟩
    · by_cases hc : (E.ConvertToType (.string (cstr str)) .Int32).isNull = true
      · simp [ConvertArrayFromV8, ConvertFromV8, lookForBestMatchingMethod, matchParameters, hInt,
          hString, hn, GetType, hs, BestMatch.initial, hc]
      · simp [ConvertArrayFromV8, ConvertFromV8, lookForBestMatchingMethod, matchParameters, hInt,
          hString, hn, GetType, hs, BestMatch.initial, hc]
    · simp [ConvertArrayFromV8, ConvertFromV8, lookForBestMatchingMethod, matchParameters,
        hString, hn, GetType, hs, BestMatch.initial]
  · intro v a hv hnotInt hnotString hcInt hcString
    rw [resolveOverload_eq_scan E k self type memberName _ first [.method second] hself hmembers]
    simp only [coercible, List.all_cons, List.all_nil, Bool.and_true] at hcInt hcString
    by_cases hnull : a.isNull = true
    · rcases horder with ⟨rfl, rfl⟩ | ⟨rfl, rfl⟩ <;>
        simp [ConvertArrayFromV8, hv, lookForBestMatchingMethod, matchParameters, hInt,
          hString, hnull, BestMatch.initial, coerceArguments]
    · have hnn : a.isNull = false := by simpa using hnull
      simp only [hnn, Bool.false_or, Bool.not_eq_true'] at hcInt hcString
      rcases horder with ⟨rfl, rfl⟩ | ⟨rfl, rfl⟩ <;>
        simp [ConvertArrayFromV8, hv, lookForBestMatchingMethod, matchParameters, hInt,
          hString, hnn, BestMatch.initial, coerceArguments, hcInt, hcString, hnotInt,
          hnotString]

/-- The instance of C3 at the example host with `Foo(String)` declared first: the integer
7 selects `Foo(Int32)`, the string "x" selects `Foo(String)` and the boolean `true`,
which coerces to both, selects `Foo(String)`. -/
theorem Invoker_Foo_overloads_witness :
    resolveOverload (exampleCollaborators [.method fooString, .method fooInt])
        ⟨exampleBinding "Foo", [.int32 7]⟩ =
      .ok (.object "Host" 7, { best := some (fooInt, [.int32 7]), bestMethodMatchedArgs := 1 }) ∧
    resolveOverload (exampleCollaborators [.method fooString, .method fooInt])
        ⟨exampleBinding "Foo", [.string "x"]⟩ =
      .ok (.object "Host" 7, { best := some (fooString, [.string "x"]), bestMethodMatchedArgs := 1 }) ∧
    resolveOverload (exampleCollaborators [.method fooString, .method fooInt])
        ⟨exampleBinding "Foo", [.boolean true]⟩ =
      .ok (.object "Host" 7, { best := some (fooString, [.string "True"]), bestMethodMatchedArgs := 0 }) := by
  have h := Invoker_Foo_overloads (exampleCollaborators [.method fooString, .method fooInt])
    fooInt fooString rfl rfl
    (by
      intro v t hv
      simp only [exampleCollaborators, exampleConvertToType, hv, if_true]
      cases v <;> simp_all [GetType, HostValue.isNull])
    1 (.object "Host" 7) (.Other "Host") "Foo" rfl fooString fooInt (Or.inr ⟨rfl, rfl⟩) rfl
  exact ⟨h.1 7, h.2.1 "x", h.2.2 (.boolean true) (.boolean true) rfl (by decide) (by decide) rfl rfl⟩

theorem GetObjectWrapperTemplate_current (s : Statics) :
    (GetObjectWrapperTemplate s).2.current = s.current := by
  unfold GetObjectWrapperTemplate
  cases h : s.sObjectWrapperTemplate <;> simp

theorem GetObjectWrapperTemplate_wellFormed (s : Statics) (h : s.wellFormed = true) :
    (GetObjectWrapperTemplate s).2.wellFormed = true ∧
      (GetObjectWrapperTemplate s).1.internalFieldCount = 1 := by
  unfold GetObjectWrapperTemplate
  cases ht : s.sObjectWrapperTemplate with
  | none => simp [Statics.wellFormed]
  | some t =>
    simp only [Statics.wellFormed, ht, Bool.and_eq_true, beq_iff_eq] at h
    simp [Statics.wellFormed, ht, h]

/-- With a current context and a well-formed static, `WrapObject` returns the proxy whose
only internal field is the external holding the context's token for the object. -/
theorem WrapObject_eq (s : Statics) (c : JavascriptContext) (x : HostValue)
    (hcur : s.current = some c) (hwf : s.wellFormed = true) :
    WrapObject s x =
      .ok (.object [.external ⟨c.id, x⟩] [], (GetObjectWrapperTemplate s).2) := by
  obtain ⟨_, h1⟩ := GetObjectWrapperTemplate_wellFormed s hwf
  simp [WrapObject, hcur, NewInstance, h1, SetInternalField, JavascriptContext.WrapObject]

theorem throwAndReturn_eq (E : Collaborators) (s : Statics) (c : JavascriptContext)
    (e : SystemException) (invoked : Option (MethodInfo × HostValue × List HostValue))
    (hcur : s.current = some c) (hwf : s.wellFormed = true) :
    throwAndReturn E s e invoked =
      .ok ({ returned := .empty,
             thrown := some (.object [.external ⟨c.id, .exception e⟩] []),
             invoked := invoked }, (GetObjectWrapperTemplate s).2) := by
  simp [throwAndReturn, ConvertToV8, WrapObject_eq s c _ hcur hwf]

theorem ConvertArrayFromV8_length (E : Collaborators) (elements : List Value) :
    ∀ results, ConvertArrayFromV8 E elements = .ok results → results.length = elements.length := by
  induction elements with
  | nil =>
    intro results h
    simp only [ConvertArrayFromV8, Except.ok.injEq] at h
    subst h; rfl
  | cons v rest ih =>
    intro results h
    simp only [ConvertArrayFromV8] at h
    cases h1 : ConvertFromV8 E v with
    | error f => simp [h1] at h
    | ok r =>
      cases h2 : ConvertArrayFromV8 E rest with
      | error f => simp [h1, h2] at h
      | ok rs =>
        simp only [h1, h2, Except.ok.injEq] at h
        subst h
        simp [ih rs h2]

/-- Whatever the member list, a method the scan ends on was either the best method at the
start or comes with the arguments coerced to its own parameter types, of which it is a
candidate. -/
theorem lookForBestMatchingMethod_arguments (E : Collaborators)
    (suppliedArguments : List HostValue) (members : List MemberInfo) :
    ∀ (best found : BestMatch) (m : MethodInfo) (arguments : List HostValue),
      lookForBestMatchingMethod E suppliedArguments.length suppliedArguments members best =
        .ok found →
      found.best = some (m, arguments) →
      best.best = some (m, arguments) ∨
        (isCandidate E suppliedArguments m = true ∧
          arguments = coerceArguments E (suppliedArguments.zip m.GetParameters)) := by
  induction members with
  | nil =>
    intro best found m arguments h hb
    simp only [lookForBestMatchingMethod, Except.ok.injEq] at h
    subst h
    exact Or.inl hb
  | cons member rest ih =>
    intro best found m arguments h hb
    cases member with
    | method method =>
      simp only [lookForBestMatchingMethod] at h
      by_cases hlen : suppliedArguments.length = method.GetParameters.length
      · simp only [hlen, if_true] at h
        by_cases hf : (matchParameters E (suppliedArguments.zip method.GetParameters)).failed > 0
        · simp only [hlen] at hf
          simp only [hf, if_true] at h
          exact ih best found m arguments (by rw [hlen]; exact h) hb
        · have hf0 : (matchParameters E (suppliedArguments.zip method.GetParameters)).failed = 0 := by
            omega
          have hco := (matchParameters_failed E _).1 hf0
          obtain ⟨_, hargs⟩ := matchParameters_of_coercible E _ hco
          have hcand : isCandidate E suppliedArguments method = true := by
            simp [isCandidate, hlen, hco]
          simp only [hlen] at hf
          simp only [hf, if_false] at h
          -- the state after the possible update
          have key : ∀ best1 : BestMatch,
              best1 = (if ((matchParameters E (suppliedArguments.zip method.GetParameters)).matchCount : Int) >
                    best.bestMethodMatchedArgs then
                  { best := some (method, (matchParameters E (suppliedArguments.zip method.GetParameters)).arguments),
                    bestMethodMatchedArgs := (matchParameters E (suppliedArguments.zip method.GetParameters)).matchCount }
                else best) →
              best1.best = some (m, arguments) →
              best.best = some (m, arguments) ∨
                (isCandidate E suppliedArguments m = true ∧
                  arguments = coerceArguments E (suppliedArguments.zip m.GetParameters)) := by
            intro best1 hbest1 hb1
            by_cases hup : ((matchParameters E (suppliedArguments.zip method.GetParameters)).matchCount : Int) >
                best.bestMethodMatchedArgs
            · rw [if_pos hup] at hbest1
              subst hbest1
              simp only [Option.some.injEq, Prod.mk.injEq] at hb1
              obtain ⟨rfl, rfl⟩ := hb1
              exact Or.inr ⟨hcand, hargs⟩
            · rw [if_neg hup] at hbest1
              subst hbest1
              exact Or.inl hb1
          by_cases hfull : (matchParameters E (List.zip suppliedArguments method.GetParameters)).matchCount =
              (matchParameters E (List.zip suppliedArguments method.GetParameters)).arguments.length
          · simp only [hfull, if_true] at h
            simp only [Except.ok.injEq] at h
            refine key found ?_ hb
            rw [← h, hfull]
          · simp only [hfull, if_false] at h
            rcases ih _ found m arguments (by rw [hlen]; exact h) hb with h1 | h1
            · exact key _ rfl h1
            · exact Or.inr h1
      · simp only [hlen, if_false] at h
        exact ih best found m arguments h hb
    | property name => simp [lookForBestMatchingMethod] at h
    | field name => simp [lookForBestMatchingMethod] at h

/-- When no member of the name is a method, `resolveOverload` reaches the `try` with no
method selected and without converting the arguments. -/
theorem resolveOverload_without_method (E : Collaborators) (k : Nat) (self : HostValue)
    (type : SystemType) (memberName : String) (args : List Value)
    (hself : GetType self = some type)
    (hnone : ∀ member ∈ E.GetMember type memberName, member.isMethod = false) :
    resolveOverload E ⟨.external ⟨k, .array [self, .string memberName]⟩, args⟩ =
      .ok (self, BestMatch.initial) := by
  have hguard : (decide ((E.GetMember type memberName).length > 0) &&
      ((E.GetMember type memberName).head?.map MemberInfo.isMethod).getD false) = false := by
    cases hm : E.GetMember type memberName with
    | nil => simp
    | cons member rest =>
      have := hnone member (by rw [hm]; exact List.mem_cons_self _ _)
      simp [this]
  simp only [resolveOverload, UnwrapObject, JavascriptExternal.GetObject, objectInfoOf, hself,
    safeCastString]
  simp only [hguard]
  rfl

/-- C7, as amended. For every host object, member name and argument list, if none of the
host members matching the name is a method (including when no member matches), `Invoker`
under an active context invokes no host method, passes to the script engine's exception
channel a proxy of the host `NullReferenceException` raised by calling `Invoke` on the
unset best method, and returns the empty handle. -/
theorem Invoker_without_method (E : Collaborators) (s : Statics) (c : JavascriptContext)
    (k : Nat) (self : HostValue) (type : SystemType) (memberName : String) (args : List Value)
    (hcur : s.current = some c) (hwf : s.wellFormed = true)
    (hself : GetType self = some type)
    (hnone : ∀ member ∈ E.GetMember type memberName, member.isMethod = false) :
    Invoker E s ⟨.external ⟨k, .array [self, .string memberName]⟩, args⟩ =
      .ok ({ returned := .empty,
             thrown := some (.object [.external ⟨c.id, .exception nullReferenceException⟩] []),
             invoked := none }, (GetObjectWrapperTemplate s).2) := by
  simp only [Invoker, resolveOverload_without_method E k self type memberName args hself hnone,
    BestMatch.initial]
  exact throwAndReturn_eq E s c nullReferenceException none hcur hwf

/-- C8, as amended. For every argument list, if no overload of the named method is a
candidate (each has a parameter count other than the argument count or an argument whose
coercion fails), `Invoker` under an active context invokes no overload, passes to the
script engine's exception channel a proxy of the host `NullReferenceException` raised by
calling `Invoke` on the unset best method, and returns the empty handle. -/
theorem Invoker_without_candidate (E : Collaborators) (s : Statics) (c : JavascriptContext)
    (k : Nat) (self : HostValue) (type : SystemType) (memberName : String) (args : List Value)
    (suppliedArguments : List HostValue) (methods : List MethodInfo)
    (hcur : s.current = some c) (hwf : s.wellFormed = true)
    (hself : GetType self = some type)
    (hmembers : E.GetMember type memberName = methods.map MemberInfo.method)
    (hargs : ConvertArrayFromV8 E args = .ok suppliedArguments)
    (hnone : ∀ m ∈ methods, isCandidate E suppliedArguments m = false) :
    Invoker E s ⟨.external ⟨k, .array [self, .string memberName]⟩, args⟩ =
      .ok ({ returned := .empty,
             thrown := some (.object [.external ⟨c.id, .exception nullReferenceException⟩] []),
             invoked := none }, (GetObjectWrapperTemplate s).2) := by
  have hres : resolveOverload E ⟨.external ⟨k, .array [self, .string memberName]⟩, args⟩ =
      .ok (self, BestMatch.initial) := by
    cases methods with
    | nil =>
      apply resolveOverload_without_method E k self type memberName args hself
      simp [hmembers]
    | cons first others =>
      rw [resolveOverload_eq_scan E k self type memberName args first
        (others.map MemberInfo.method) hself (by simpa using hmembers)]
      have hlen := ConvertArrayFromV8_length E args suppliedArguments hargs
      rcases lookForBestMatchingMethod_spec E suppliedArguments (first :: others)
          BestMatch.initial with ⟨heq, _⟩ | ⟨pre, m, post, hsplit, hc, _⟩
      · simp only [hargs]
        rw [← hlen]
        simp only [List.map_cons] at heq
        simp [heq]
      · have hm : m ∈ first :: others := by rw [hsplit]; simp
        rw [hnone m hm] at hc
        exact absurd hc (by simp)
  simp only [Invoker, hres, BestMatch.initial]
  exact throwAndReturn_eq E s c nullReferenceException none hcur hwf

/-- The instance of amended C7 at a host type whose only member named `Foo` is a
property. -/
theorem Invoker_without_method_witness :
    Invoker (exampleCollaborators [.property "Foo"]) exampleStatics
        ⟨exampleBinding "Foo", [.int32 1]⟩ =
      .ok ({ returned := .empty,
             thrown := some (.object [.external ⟨1, .exception nullReferenceException⟩] []),
             invoked := none }, (GetObjectWrapperTemplate exampleStatics).2) :=
  Invoker_without_method (exampleCollaborators [.property "Foo"]) exampleStatics ⟨1⟩ 1
    (.object "Host" 7) (.Other "Host") "Foo" [.int32 1] rfl rfl rfl
    (by simp [exampleCollaborators, MemberInfo.isMethod])

/-- C7 fails as stated: on a host type with no member `Foo`, what the script catches from
`Invoker` is the host `NullReferenceException` with its stock message, not an exception
of a member-not-found kind describing the failure; the whole outcome is the one of a
call of the equally absent member `Bar`. -/
theorem Invoker_missing_member_raises_NullReference :
    (∃ o s, Invoker (exampleCollaborators []) exampleStatics ⟨exampleBinding "Foo", []⟩ =
        .ok (o, s) ∧
      o.caught = some (.exception ⟨"System.NullReferenceException",
        "Object reference not set to an instance of an object.", []⟩)) ∧
    Invoker (exampleCollaborators []) exampleStatics ⟨exampleBinding "Foo", []⟩ =
      Invoker (exampleCollaborators []) exampleStatics ⟨exampleBinding "Bar", []⟩ :=
  ⟨⟨_, _, rfl, rfl⟩, rfl⟩

/-- The instance of amended C8 at the overload `Foo(Int32)` called with a string, which
does not coerce to `Int32`. -/
theorem Invoker_without_candidate_witness :
    Invoker (exampleCollaborators [.method fooInt]) exampleStatics
        ⟨exampleBinding "Foo", [.string "x"]⟩ =
      .ok ({ returned := .empty,
             thrown := some (.object [.external ⟨1, .exception nullReferenceException⟩] []),
             invoked := none }, (GetObjectWrapperTemplate exampleStatics).2) :=
  Invoker_without_candidate (exampleCollaborators [.method fooInt]) exampleStatics ⟨1⟩ 1
    (.object "Host" 7) (.Other "Host") "Foo" [.string "x"] [.string "x"] [fooInt] rfl rfl rfl
    rfl rfl (by
      intro m hm
      simp only [List.mem_singleton] at hm
      subst hm
      rfl)

/-- C8 fails as stated: the overload `Foo(Int32)` called with a string has no matching
overload, and what the script catches from `Invoker` is the host
`NullReferenceException` with its stock message, not an exception of a
no-matching-overload kind; the whole outcome is the one of a call of a member the host
type does not have. -/
theorem Invoker_no_overload_raises_NullReference :
    (∃ o s, Invoker (exampleCollaborators [.method fooInt]) exampleStatics
          ⟨exampleBinding "Foo", [.string "x"]⟩ = .ok (o, s) ∧
      o.caught = some (.exception ⟨"System.NullReferenceException",
        "Object reference not set to an instance of an object.", []⟩)) ∧
    Invoker (exampleCollaborators [.method fooInt]) exampleStatics
        ⟨exampleBinding "Foo", [.string "x"]⟩ =
      Invoker (exampleCollaborators []) exampleStatics ⟨exampleBinding "Foo", [.string "x"]⟩ :=
  ⟨⟨_, _, rfl, rfl⟩, rfl⟩

/-- C9, what the code does. When the overload `Invoker` selected raises a host exception
`e`, `MethodBase::Invoke` reports it as a `TargetInvocationException`; `Invoker` under an
active context catches that exception and passes a proxy of it to the script engine's
exception channel, and returns the empty handle. The script catches an exception whose
message is the stock message of `TargetInvocationException`; the message of `e` is that
of its inner exception. -/
theorem Invoker_throws_TargetInvocationException (E : Collaborators) (s : Statics)
    (c : JavascriptContext) (iArgs : Arguments) (self : HostValue) (found : BestMatch)
    (m : MethodInfo) (arguments : List HostValue) (e : SystemException)
    (hcur : s.current = some c) (hwf : s.wellFormed = true)
    (hres : resolveOverload E iArgs = .ok (self, found))
    (hbest : found.best = some (m, arguments))
    (hraise : m.body self arguments = .error e) :
    ∃ o s1, Invoker E s iArgs = .ok (o, s1) ∧
      o.returned = .empty ∧
      o.thrown = some (.object [.external ⟨c.id, .exception (targetInvocationException e)⟩] []) ∧
      ∃ e1, o.caught = some (.exception e1) ∧
        e1.message = "Exception has been thrown by the target of an invocation." ∧
        e1.innerExceptions.head? = some (e.typeName, e.message) := by
  refine ⟨{ returned := .empty,
             thrown := some (.object [.external ⟨c.id, .exception (targetInvocationException e)⟩] []),
             invoked := some (m, self, arguments) }, (GetObjectWrapperTemplate s).2,
    ?_, rfl, rfl, targetInvocationException e, ?_, rfl, rfl⟩
  · simp only [Invoker, hres, hbest, MethodInfo.Invoke, hraise]
    exact throwAndReturn_eq E s c _ _ hcur hwf
  · simp [Outcome.caught, UnwrapObject, JavascriptExternal.GetObject]

/-- C9 at the failing input: a host method raising with the message "bad arg", called
from a script, makes the script catch an exception whose message is not "bad arg" but
the stock message of `TargetInvocationException`. -/
theorem Invoker_bad_arg_message_is_lost :
    ∃ o s1, Invoker (exampleCollaborators [.method (failingMethod "bad arg")]) exampleStatics
        ⟨exampleBinding "Check", [.int32 0]⟩ = .ok (o, s1) ∧
      o.returned = .empty ∧
      o.thrown = some (.object [.external ⟨1, .exception (targetInvocationException
        ⟨"System.ArgumentException", "bad arg", []⟩)⟩] []) ∧
      ∃ e1, o.caught = some (.exception e1) ∧
        e1.message = "Exception has been thrown by the target of an invocation." ∧
        e1.innerExceptions.head? = some ("System.ArgumentException", "bad arg") :=
  Invoker_throws_TargetInvocationException
    (exampleCollaborators [.method (failingMethod "bad arg")])
    exampleStatics ⟨1⟩ ⟨exampleBinding "Check", [.int32 0]⟩ (.object "Host" 7)
    { best := some (failingMethod "bad arg", [.int32 0]), bestMethodMatchedArgs := 1 }
    (failingMethod "bad arg") [.int32 0] ⟨"System.ArgumentException", "bad arg", []⟩
    rfl rfl rfl rfl rfl

/-- A method `resolveOverload` selected comes with the supplied arguments coerced to its
own parameter types, and is a candidate for them. -/
theorem resolveOverload_arguments (E : Collaborators) (iArgs : Arguments) (self : HostValue)
    (found : BestMatch) (m : MethodInfo) (arguments : List HostValue)
    (hres : resolveOverload E iArgs = .ok (self, found))
    (hbest : found.best = some (m, arguments)) :
    ∃ suppliedArguments, ConvertArrayFromV8 E iArgs.args = .ok suppliedArguments ∧
      isCandidate E suppliedArguments m = true ∧
      arguments = coerceArguments E (suppliedArguments.zip m.GetParameters) := by
  unfold resolveOverload at hres
  cases hdata : UnwrapObject iArgs.Data with
  | error f => simp [hdata] at hres
  | ok data =>
    simp only [hdata] at hres
    cases hinfo : objectInfoOf data with
    | error f => simp [hinfo] at hres
    | ok info =>
      obtain ⟨self1, type, memberName⟩ := info
      simp only [hinfo] at hres
      split at hres
      · cases hargs : ConvertArrayFromV8 E iArgs.args with
        | error f => simp [hargs] at hres
        | ok suppliedArguments =>
          simp only [hargs] at hres
          have hlen := ConvertArrayFromV8_length E iArgs.args suppliedArguments hargs
          cases hscan : lookForBestMatchingMethod E iArgs.args.length suppliedArguments
              (E.GetMember type memberName) BestMatch.initial with
          | error f => simp [hscan] at hres
          | ok found1 =>
            simp only [hscan, Except.ok.injEq, Prod.mk.injEq] at hres
            obtain ⟨_, rfl⟩ := hres
            rw [← hlen] at hscan
            rcases lookForBestMatchingMethod_arguments E suppliedArguments _ _ _ m arguments
                hscan hbest with h | h
            · simp [BestMatch.initial] at h
            · exact ⟨suppliedArguments, rfl, h⟩
      · simp only [Except.ok.injEq, Prod.mk.injEq] at hres
        obtain ⟨_, rfl⟩ := hres
        simp [BestMatch.initial] at hbest

/-- C10. Invocation result: whenever `Invoker` selects an overload and it returns
normally, the call made is that overload on the target object with exactly the supplied
arguments coerced to that overload's own declared parameter types, in argument order, and
what `Invoker` returns to the script is `ConvertToV8` of the result of that call, nothing
being thrown. -/
theorem Invoker_returns_converted_result (E : Collaborators) (s : Statics) (iArgs : Arguments)
    (self : HostValue) (found : BestMatch) (m : MethodInfo) (arguments : List HostValue)
    (ret : HostValue)
    (hres : resolveOverload E iArgs = .ok (self, found))
    (hbest : found.best = some (m, arguments))
    (hret : m.Invoke self arguments = .ok ret) :
    (∃ suppliedArguments, ConvertArrayFromV8 E iArgs.args = .ok suppliedArguments ∧
      isCandidate E suppliedArguments m = true ∧
      arguments = coerceArguments E (suppliedArguments.zip m.GetParameters)) ∧
    Invoker E s iArgs =
      match ConvertToV8 E s ret with
      | .error f => .error f
      | .ok (returned, s1) =>
        .ok ({ returned := returned, thrown := none,
               invoked := some (m, self, arguments) }, s1) := by
  refine ⟨resolveOverload_arguments E iArgs self found m arguments hres hbest, ?_⟩
  simp only [Invoker, hres, hbest, hret]

/-- The instance of C10 at a host object exposing `Add(Int32, Int32) -> Int32`: the
script call `Add(2, 3)` invokes `Add` on the object with the host integers 2 and 3 and
returns the script `Int32` 5. -/
theorem Invoker_returns_converted_result_witness :
    Invoker (exampleCollaborators [.method addMethod]) exampleStatics
        ⟨exampleBinding "Add", [.int32 2, .int32 3]⟩ =
      .ok ({ returned := .int32 5, thrown := none,
             invoked := some (addMethod, .object "Host" 7, [.int32 2, .int32 3]) },
           exampleStatics) :=
  (Invoker_returns_converted_result (exampleCollaborators [.method addMethod]) exampleStatics
    ⟨exampleBinding "Add", [.int32 2, .int32 3]⟩ (.object "Host" 7)
    { best := some (addMethod, [.int32 2, .int32 3]), bestMethodMatchedArgs := 2 }
    addMethod [.int32 2, .int32 3] (.int32 5) rfl rfl rfl).2

/-! ## The conversions -/

/-- The conversion of a property name in `ConvertObjectFromV8` is `ConvertFromV8` of the
value the engine returns for the stored key. -/
theorem ConvertFromV8_propertyName (E : Collaborators) (propName : PropertyKey) :
    ConvertFromV8 E propName.toValue = .ok (propertyNameFromV8 propName) := by
  cases propName <;> simp [PropertyKey.toValue, ConvertFromV8, propertyNameFromV8]

theorem DateToTicks_anchor : DateToTicks 1970 1 2 = 621356832000000000 := by decide

theorem ConvertDateFromV8_of_inRange (E : Collaborators) (ms : Int) (h : dateInRange ms = true) :
    ConvertDateFromV8 E ms =
      .ok (.dateTime (E.ToLocalTime (ms * TicksPerMillisecond + DateToTicks 1970 1 2))) := by
  simp only [dateInRange, Bool.and_eq_true, decide_eq_true_eq] at h
  obtain ⟨h1, h2⟩ := h
  rw [DateToTicks_anchor] at h1 h2 ⊢
  simp only [TicksPerMillisecond, MaxTicks] at h1 h2 ⊢
  have hov : ¬ (922337203685477 ≤ ms ∨ ms ≤ -922337203685477) := by omega
  have hwrap : wrapInt64 (ms * 10000 + 621356832000000000) = ms * 10000 + 621356832000000000 := by
    unfold wrapInt64
    omega
  have hrange : ¬ (ms * 10000 + 621356832000000000 < 0 ∨
      3155378975999999999 < ms * 10000 + 621356832000000000) := by omega
  simp [ConvertDateFromV8, FromMilliseconds, hov, DateToTicks_anchor, TicksPerMillisecond, hwrap,
    DateTimeOfTicks, MaxTicks, hrange]

theorem dictionarySet_some (results : List (HostValue × HostValue)) (s : String) (value : HostValue) :
    ∃ results1, dictionarySet results (some s) value = .ok results1 := by
  unfold dictionarySet
  by_cases h : results.any (fun e => isStringKey s e.1) = true
  · simp only [h, if_true]
    exact ⟨_, rfl⟩
  · simp only [h, if_false]
    exact ⟨_, rfl⟩

mutual

theorem ConvertFromV8_total (E : Collaborators) :
    ∀ v : Value, v.isConvertible = true → ∃ x, ConvertFromV8 E v = .ok x
  | .empty, h => by simp [Value.isConvertible] at h
  | .undefined, _ => by
    simp only [ConvertFromV8]
    exact ⟨_, rfl⟩
  | .null, _ => by
    simp only [ConvertFromV8]
    exact ⟨_, rfl⟩
  | .boolean _, _ => by
    simp only [ConvertFromV8]
    exact ⟨_, rfl⟩
  | .int32 _, _ => by
    simp only [ConvertFromV8]
    exact ⟨_, rfl⟩
  | .number x, _ => by
    by_cases hx : isInt32Number x = true
    · simp only [ConvertFromV8, hx, if_true]
      exact ⟨_, rfl⟩
    · simp only [ConvertFromV8, hx, if_false]
      exact ⟨_, rfl⟩
  | .string _, _ => by
    simp only [ConvertFromV8]
    exact ⟨_, rfl⟩
  | .array elements, h => by
    obtain ⟨xs, hxs⟩ := ConvertArrayFromV8_total E elements (by simpa [Value.isConvertible] using h)
    simp only [ConvertFromV8, hxs]
    exact ⟨_, rfl⟩
  | .date ms, h => by
    have := ConvertDateFromV8_of_inRange E ms (by simpa [Value.isConvertible] using h)
    simp only [ConvertFromV8, this]
    exact ⟨_, rfl⟩
  | .object [] properties, h => by
    obtain ⟨r, hr⟩ := ConvertObjectFromV8_total E properties
      (by simpa [Value.isConvertible] using h) []
    simp only [ConvertFromV8, hr]
    exact ⟨_, rfl⟩
  | .object (.external w :: rest) properties, _ => by
    simp [ConvertFromV8, UnwrapObject]
  | .object (.empty :: _) _, h => by simp [Value.isConvertible] at h
  | .object (.undefined :: _) _, h => by simp [Value.isConvertible] at h
  | .object (.null :: _) _, h => by simp [Value.isConvertible] at h
  | .object (.boolean _ :: _) _, h => by simp [Value.isConvertible] at h
  | .object (.int32 _ :: _) _, h => by simp [Value.isConvertible] at h
  | .object (.number _ :: _) _, h => by simp [Value.isConvertible] at h
  | .object (.string _ :: _) _, h => by simp [Value.isConvertible] at h
  | .object (.array _ :: _) _, h => by simp [Value.isConvertible] at h
  | .object (.date _ :: _) _, h => by simp [Value.isConvertible] at h
  | .object (.object _ _ :: _) _, h => by simp [Value.isConvertible] at h
  | .object (.function _ _ _ :: _) _, h => by simp [Value.isConvertible] at h
  | .function _ _ properties, h => by
    obtain ⟨r, hr⟩ := ConvertObjectFromV8_total E properties
      (by simpa [Value.isConvertible] using h) []
    simp only [ConvertFromV8, hr]
    exact ⟨_, rfl⟩
  | .external _, _ => by
    simp only [ConvertFromV8]
    exact ⟨_, rfl⟩

theorem ConvertArrayFromV8_total (E : Collaborators) :
    ∀ elements : List Value, Value.allConvertible elements = true →
      ∃ xs, ConvertArrayFromV8 E elements = .ok xs
  | [], _ => by
    simp only [ConvertArrayFromV8]
    exact ⟨_, rfl⟩
  | element :: rest, h => by
    simp only [Value.allConvertible, Bool.and_eq_true] at h
    obtain ⟨x, hx⟩ := ConvertFromV8_total E element h.1
    obtain ⟨xs, hxs⟩ := ConvertArrayFromV8_total E rest h.2
    simp only [ConvertArrayFromV8, hx, hxs]
    exact ⟨_, rfl⟩

theorem ConvertObjectFromV8_total (E : Collaborators) :
    ∀ properties : List (PropertyKey × Value), Value.propertiesConvertible properties = true →
      ∀ results, ∃ r, ConvertObjectFromV8 E properties results = .ok r
  | [], _, results => by
    simp only [ConvertObjectFromV8]
    exact ⟨_, rfl⟩
  | (.name s, propValue) :: rest, h, results => by
    simp only [Value.propertiesConvertible, Bool.and_eq_true] at h
    obtain ⟨x, hx⟩ := ConvertFromV8_total E propValue h.1.2
    obtain ⟨results1, h1⟩ := dictionarySet_some results (cstr s) x
    obtain ⟨r, hr⟩ := ConvertObjectFromV8_total E rest h.2 results1
    simp only [ConvertObjectFromV8, propertyNameFromV8, safeCastString, hx, h1, hr]
    exact ⟨r, rfl⟩
  | (.index n, propValue) :: rest, h, _ => by
    simp [Value.propertiesConvertible, PropertyKey.isName] at h

end

theorem objectSet_of_nonempty (E : Collaborators) (properties : List (PropertyKey × Value))
    (key val : Value) (hkey : key.IsEmpty = false) (hval : val.IsEmpty = false) :
    ∃ properties1, objectSet E properties key val = .ok properties1 := by
  unfold objectSet
  simp only [hkey, hval, Bool.or_self, Bool.false_eq_true, if_false]
  split
  · exact ⟨_, rfl⟩
  · exact ⟨_, rfl⟩

/-- The state a conversion needs and keeps: a current context and a well-formed static. -/
theorem WrapObject_total (s : Statics) (c : JavascriptContext) (x : HostValue)
    (hcur : s.current = some c) (hwf : s.wellFormed = true) :
    ∃ v s1, WrapObject s x = .ok (v, s1) ∧ v.IsEmpty = false ∧
      s1.current = some c ∧ s1.wellFormed = true := by
  refine ⟨_, _, WrapObject_eq s c x hcur hwf, rfl, ?_, ?_⟩
  · rw [GetObjectWrapperTemplate_current, hcur]
  · exact (GetObjectWrapperTemplate_wellFormed s hwf).1

mutual

theorem ConvertToV8_total (E : Collaborators) (c : JavascriptContext) :
    ∀ (x : HostValue) (s : Statics), s.current = some c → s.wellFormed = true →
      x.isMarshallable = true →
      ∃ v s1, ConvertToV8 E s x = .ok (v, s1) ∧ v.IsEmpty = false ∧
        s1.current = some c ∧ s1.wellFormed = true
  | .null, _, _, _, h => by simp [HostValue.isMarshallable] at h
  | .boolean _, s, hcur, hwf, _ => by
    simp only [ConvertToV8]
    exact ⟨_, _, rfl, rfl, hcur, hwf⟩
  | .int16 _, _, _, _, h => by simp [HostValue.isMarshallable] at h
  | .int32 _, s, hcur, hwf, _ => by
    simp only [ConvertToV8]
    exact ⟨_, _, rfl, rfl, hcur, hwf⟩
  | .single _, s, hcur, hwf, _ => by
    simp only [ConvertToV8]
    exact ⟨_, _, rfl, rfl, hcur, hwf⟩
  | .double _, s, hcur, hwf, _ => by
    simp only [ConvertToV8]
    exact ⟨_, _, rfl, rfl, hcur, hwf⟩
  | .string _, s, hcur, hwf, _ => by
    simp only [ConvertToV8]
    exact ⟨_, _, rfl, rfl, hcur, hwf⟩
  | .dateTime _, s, hcur, hwf, _ => by
    simp only [ConvertToV8]
    exact ⟨_, _, rfl, rfl, hcur, hwf⟩
  | .array elements, s, hcur, hwf, h => by
    obtain ⟨vs, s1, h1, hc1, hw1⟩ := ConvertFromSystemArray_total E c elements s hcur hwf
      (by simpa [HostValue.isMarshallable] using h)
    exact ⟨.array vs, s1, by simp only [ConvertToV8, h1], rfl, hc1, hw1⟩
  | .delegate _, s, hcur, hwf, _ => by
    simp only [ConvertToV8, ConvertFromSystemDelegate, hcur]
    exact ⟨_, _, rfl, rfl, hcur, hwf⟩
  | .dictionary entries, s, hcur, hwf, h => by
    obtain ⟨ps, s1, h1, hc1, hw1⟩ := ConvertFromSystemDictionary_total E c entries s hcur hwf
      (by simpa [HostValue.isMarshallable] using h) []
    exact ⟨.object [] ps, s1, by simp only [ConvertToV8, h1], rfl, hc1, hw1⟩
  | .list elements, s, hcur, hwf, h => by
    obtain ⟨vs, s1, h1, hc1, hw1⟩ := ConvertFromSystemList_total E c elements s hcur hwf
      (by simpa [HostValue.isMarshallable] using h)
    exact ⟨.array vs, s1, by simp only [ConvertToV8, h1], rfl, hc1, hw1⟩
  | .object typeName ref, s, hcur, hwf, _ => by
    simp only [ConvertToV8]
    exact WrapObject_total s c _ hcur hwf
  | .exception e, s, hcur, hwf, _ => by
    simp only [ConvertToV8]
    exact WrapObject_total s c _ hcur hwf

theorem ConvertFromSystemArray_total (E : Collaborators) (c : JavascriptContext) :
    ∀ (elements : List HostValue) (s : Statics), s.current = some c → s.wellFormed = true →
      HostValue.allMarshallable elements = true →
      ∃ vs s1, ConvertFromSystemArray E s elements = .ok (vs, s1) ∧
        s1.current = some c ∧ s1.wellFormed = true
  | [], s, hcur, hwf, _ => ⟨[], s, by simp only [ConvertFromSystemArray], hcur, hwf⟩
  | element :: rest, s, hcur, hwf, h => by
    simp only [HostValue.allMarshallable, Bool.and_eq_true] at h
    obtain ⟨v, s1, h1, hne, hc1, hw1⟩ := ConvertToV8_total E c element s hcur hwf h.1
    obtain ⟨vs, s2, h2, hc2, hw2⟩ := ConvertFromSystemArray_total E c rest s1 hc1 hw1 h.2
    exact ⟨v :: vs, s2, by simp [ConvertFromSystemArray, h1, hne, h2], hc2, hw2⟩

theorem ConvertFromSystemList_total (E : Collaborators) (c : JavascriptContext) :
    ∀ (elements : List HostValue) (s : Statics), s.current = some c → s.wellFormed = true →
      HostValue.allMarshallable elements = true →
      ∃ vs s1, ConvertFromSystemList E s elements = .ok (vs, s1) ∧
        s1.current = some c ∧ s1.wellFormed = true
  | [], s, hcur, hwf, _ => ⟨[], s, by simp only [ConvertFromSystemList], hcur, hwf⟩
  | element :: rest, s, hcur, hwf, h => by
    simp only [HostValue.allMarshallable, Bool.and_eq_true] at h
    obtain ⟨v, s1, h1, hne, hc1, hw1⟩ := ConvertToV8_total E c element s hcur hwf h.1
    obtain ⟨vs, s2, h2, hc2, hw2⟩ := ConvertFromSystemList_total E c rest s1 hc1 hw1 h.2
    exact ⟨v :: vs, s2, by simp [ConvertFromSystemList, h1, hne, h2], hc2, hw2⟩

theorem ConvertFromSystemDictionary_total (E : Collaborators) (c : JavascriptContext) :
    ∀ (entries : List (HostValue × HostValue)) (s : Statics), s.current = some c →
      s.wellFormed = true → HostValue.entriesMarshallable entries = true →
      ∀ properties, ∃ ps s1, ConvertFromSystemDictionary E s entries properties = .ok (ps, s1) ∧
        s1.current = some c ∧ s1.wellFormed = true
  | [], s, hcur, hwf, _, properties =>
    ⟨properties, s, by simp only [ConvertFromSystemDictionary], hcur, hwf⟩
  | (key, value) :: rest, s, hcur, hwf, h, properties => by
    simp only [HostValue.entriesMarshallable, Bool.and_eq_true] at h
    obtain ⟨k, s1, h1, hne1, hc1, hw1⟩ := ConvertToV8_total E c key s hcur hwf h.1.1
    obtain ⟨v, s2, h2, hne2, hc2, hw2⟩ := ConvertToV8_total E c value s1 hc1 hw1 h.1.2
    obtain ⟨properties1, h3⟩ := objectSet_of_nonempty E properties k v hne1 hne2
    obtain ⟨ps, s3, h4, hc3, hw3⟩ :=
      ConvertFromSystemDictionary_total E c rest s2 hc2 hw2 h.2 properties1
    exact ⟨ps, s3, by simp only [ConvertFromSystemDictionary, h1, h2, h3, h4], hc3, hw3⟩

end

theorem cstr_of_isNulFree (s : String) (h : isNulFree s = true) : cstr s = s := by
  unfold cstr
  have : s.data.takeWhile (fun c => c != Char.ofNat 0) = s.data := by
    rw [List.takeWhile_eq_self_iff]
    simpa [isNulFree] using h
  rw [this]

theorem isStringKey_string (k t : String) : isStringKey k (.string t) = decide (t = k) := rfl

mutual

theorem roundTrip_value (E : Collaborators) :
    ∀ (x : HostValue) (s : Statics), x.isRoundTrippable E = true →
      ∃ v, ConvertToV8 E s x = .ok (v, s) ∧ v.IsEmpty = false ∧ ConvertFromV8 E v = .ok x
  | .null, _, h => by simp [HostValue.isRoundTrippable] at h
  | .boolean b, s, _ => ⟨.boolean b, by simp only [ConvertToV8], rfl, by simp only [ConvertFromV8]⟩
  | .int16 _, _, h => by simp [HostValue.isRoundTrippable] at h
  | .int32 n, s, _ => ⟨.int32 n, by simp only [ConvertToV8], rfl, by simp only [ConvertFromV8]⟩
  | .single _, _, h => by simp [HostValue.isRoundTrippable] at h
  | .double x, s, h => by
    have hx : isInt32Number x = false := by simpa [HostValue.isRoundTrippable] using h
    exact ⟨.number x, by simp only [ConvertToV8], rfl, by simp [ConvertFromV8, hx]⟩
  | .string str, s, h => by
    simp only [HostValue.isRoundTrippable, isTransmitted, Bool.and_eq_true,
      decide_eq_true_eq] at h
    have hs : cstr str = str := cstr_of_isNulFree str h.1
    exact ⟨.string str, by simp only [ConvertToV8, h.2, hs], rfl,
      by simp only [ConvertFromV8, hs]⟩
  | .dateTime _, _, h => by simp [HostValue.isRoundTrippable] at h
  | .array elements, s, h => by
    obtain ⟨vs, h1, h2⟩ := roundTrip_array E elements s
      (by simpa [HostValue.isRoundTrippable] using h)
    exact ⟨.array vs, by simp only [ConvertToV8, h1], rfl, by simp only [ConvertFromV8, h2]⟩
  | .delegate _, _, h => by simp [HostValue.isRoundTrippable] at h
  | .dictionary entries, s, h => by
    obtain ⟨ps, h1, h2⟩ := roundTrip_dictionary E entries s []
      (by simpa [HostValue.isRoundTrippable] using h) (by simp)
    have h3 := h2 [] (by simp)
    simp only [List.nil_append] at h1 h3
    refine ⟨.object [] ps, by simp only [ConvertToV8, h1], rfl, ?_⟩
    simp [ConvertFromV8, h3]
  | .list _, _, h => by simp [HostValue.isRoundTrippable] at h
  | .object _ _, _, h => by simp [HostValue.isRoundTrippable] at h
  | .exception _, _, h => by simp [HostValue.isRoundTrippable] at h

theorem roundTrip_array (E : Collaborators) :
    ∀ (elements : List HostValue) (s : Statics), HostValue.allRoundTrippable E elements = true →
      ∃ vs, ConvertFromSystemArray E s elements = .ok (vs, s) ∧
        ConvertArrayFromV8 E vs = .ok elements
  | [], s, _ => ⟨[], by simp only [ConvertFromSystemArray], by simp only [ConvertArrayFromV8]⟩
  | element :: rest, s, h => by
    simp only [HostValue.allRoundTrippable, Bool.and_eq_true] at h
    obtain ⟨v, h1, hne, h2⟩ := roundTrip_value E element s h.1
    obtain ⟨vs, h3, h4⟩ := roundTrip_array E rest s h.2
    exact ⟨v :: vs, by simp [ConvertFromSystemArray, h1, hne, h3],
      by simp only [ConvertArrayFromV8, h2, h4]⟩

theorem roundTrip_dictionary (E : Collaborators) :
    ∀ (entries : List (HostValue × HostValue)) (s : Statics)
      (properties : List (PropertyKey × Value)),
      HostValue.entriesRoundTrippable E entries = true →
      (∀ k, entries.any (fun e => isStringKey k e.1) = true →
        properties.any (fun p => decide (p.1 = .name k)) = false) →
      ∃ ps, ConvertFromSystemDictionary E s entries properties = .ok (properties ++ ps, s) ∧
        ∀ results, (∀ k, entries.any (fun e => isStringKey k e.1) = true →
            results.any (fun e => isStringKey k e.1) = false) →
          ConvertObjectFromV8 E ps results = .ok (results ++ entries)
  | [], s, properties, _, _ =>
    ⟨[], by simp only [ConvertFromSystemDictionary, List.append_nil],
      fun results _ => by simp only [ConvertObjectFromV8, List.append_nil]⟩
  | (key, value) :: rest, s, properties, h, hfresh => by
    simp only [HostValue.entriesRoundTrippable, Bool.and_eq_true] at h
    obtain ⟨⟨hkey, hvalue⟩, hrest⟩ := h
    cases key with
    | string k =>
      simp only [isTransmitted, Bool.and_eq_true, decide_eq_true_eq, Bool.not_eq_true'] at hkey
      obtain ⟨⟨⟨hnul, htrans⟩, hname⟩, hdistinct⟩ := hkey
      have hk : cstr k = k := cstr_of_isNulFree k hnul
      obtain ⟨v, hv1, hvne, hv2⟩ := roundTrip_value E value s hvalue
      have hprops : properties.any (fun p => decide (p.1 = .name k)) = false :=
        hfresh k (by simp [isStringKey])
      have hne : ∀ k1, rest.any (fun e => isStringKey k1 e.1) = true → k1 ≠ k := by
        intro k1 h1 heq
        rw [heq, hdistinct] at h1
        exact absurd h1 (by simp)
      obtain ⟨ps, hps1, hps2⟩ := roundTrip_dictionary E rest s (properties ++ [(.name k, v)]) hrest
        (by
          intro k1 h1
          have hp := hfresh k1 (by simp only [List.any_cons, h1, Bool.or_true])
          have hk1 := hne k1 h1
          simp only [List.any_append, hp, List.any_cons, List.any_nil, Bool.or_false,
            Bool.false_or, decide_eq_false_iff_not, PropertyKey.name.injEq]
          exact fun heq => hk1 heq.symm)
      refine ⟨(.name k, v) :: ps, ?_, ?_⟩
      · have hke : (Value.string k).IsEmpty = false := rfl
        simp only [ConvertFromSystemDictionary, ConvertToV8, htrans, hk, hv1, objectSet, hke,
          hvne, Bool.or_self, Bool.false_eq_true, if_false, hname, hprops, hps1]
        simp
      · intro results hresults
        have hr : results.any (fun e => isStringKey k e.1) = false :=
          hresults k (by simp [isStringKey])
        have := hps2 (results ++ [(.string k, value)]) (by
          intro k1 h1
          have hp := hresults k1 (by simp only [List.any_cons, h1, Bool.or_true])
          have hk1 := hne k1 h1
          simp only [List.any_append, hp, List.any_cons, List.any_nil, Bool.or_false,
            Bool.false_or, isStringKey_string, decide_eq_false_iff_not]
          exact fun heq => hk1 heq.symm)
        simp only [ConvertObjectFromV8, propertyNameFromV8, hk, safeCastString, hv2,
          dictionarySet, hr, Bool.false_eq_true, if_false, this]
        simp
    | null => simp at hkey
    | boolean _ => simp at hkey
    | int16 _ => simp at hkey
    | int32 _ => simp at hkey
    | single _ => simp at hkey
    | double _ => simp at hkey
    | dateTime _ => simp at hkey
    | array _ => simp at hkey
    | delegate _ => simp at hkey
    | dictionary _ => simp at hkey
    | list _ => simp at hkey
    | object _ _ => simp at hkey
    | exception _ => simp at hkey

end

/-- C2, as amended. Round trip: for every host value that is a boolean, a 32-bit integer,
a double whose value is not an int32, a string without NUL character that the
transcoding keeps, an array of such values or a dictionary of such values whose keys are
distinct such strings the engine stores as names, `ConvertToV8` returns a script value,
in any state and leaving it unchanged, and `ConvertFromV8` of that script value is the
host value itself (for a dictionary, the same entries in the same order). -/
theorem ConvertFromV8_ConvertToV8 (E : Collaborators) (s : Statics) (x : HostValue)
    (h : x.isRoundTrippable E = true) :
    ∃ v, ConvertToV8 E s x = .ok (v, s) ∧ ConvertFromV8 E v = .ok x := by
  obtain ⟨v, h1, _, h2⟩ := roundTrip_value E x s h
  exact ⟨v, h1, h2⟩

/-- The instance of amended C2 at a dictionary holding the array `[1, "a", true]` and a
boolean. -/
theorem ConvertFromV8_ConvertToV8_witness :
    ∃ v, ConvertToV8 (exampleCollaborators []) exampleStatics
        (.dictionary [(.string "items", .array [.int32 1, .string "a", .boolean true]),
          (.string "done", .boolean false)]) = .ok (v, exampleStatics) ∧
      ConvertFromV8 (exampleCollaborators []) v =
        .ok (.dictionary [(.string "items", .array [.int32 1, .string "a", .boolean true]),
          (.string "done", .boolean false)]) :=
  ConvertFromV8_ConvertToV8 (exampleCollaborators []) exampleStatics
    (.dictionary [(.string "items", .array [.int32 1, .string "a", .boolean true]),
      (.string "done", .boolean false)]) rfl

/-- C2 fails as stated: a boxed 16-bit integer never comes back as itself (its
conversion raises), a single-precision float comes back as a double, and an ordered list
comes back as an array. -/
theorem roundTrip_changes_Int16_Single_List :
    (¬ ∃ v s, ConvertToV8 (exampleCollaborators []) exampleStatics (.int16 5) = .ok (v, s) ∧
        ConvertFromV8 (exampleCollaborators []) v = .ok (.int16 5)) ∧
    (ConvertToV8 (exampleCollaborators []) exampleStatics (.single (3 / 2)) =
        .ok (.number (3 / 2), exampleStatics) ∧
      ConvertFromV8 (exampleCollaborators []) (.number (3 / 2)) = .ok (.double (3 / 2)) ∧
      HostValue.double (3 / 2) ≠ HostValue.single (3 / 2)) ∧
    (ConvertToV8 (exampleCollaborators []) exampleStatics (.list [.int32 1, .int32 2]) =
        .ok (.array [.int32 1, .int32 2], exampleStatics) ∧
      ConvertFromV8 (exampleCollaborators []) (.array [.int32 1, .int32 2]) =
        .ok (.array [.int32 1, .int32 2]) ∧
      HostValue.array [.int32 1, .int32 2] ≠ HostValue.list [.int32 1, .int32 2]) := by
  refine ⟨?_, ⟨rfl, ?_, ?_⟩, ⟨rfl, rfl, ?_⟩⟩
  · rintro ⟨v, s, h, _⟩
    simp [ConvertToV8] at h
  · have h : isInt32Number (3 / 2) = false := by
      have hden : ((3 : ℚ) / 2).den = 2 := by norm_num
      simp [isInt32Number, hden]
    simp [ConvertFromV8, h]
  · intro h
    cases h
  · intro h
    cases h

/-! ## Handles and the values they stand for -/

/-- C6. Wrapper identity: for every host object and an active context, `WrapObject`
returns a handle that `UnwrapObject` turns back into that very object and that
`ConvertFromV8` converts to that very object, not to a dictionary or another wrapper; the
context stays current, so the same holds of the handle of every later `WrapObject` of the
object, as of the next one. -/
theorem UnwrapObject_WrapObject (E : Collaborators) (s : Statics) (c : JavascriptContext)
    (x : HostValue) (hcur : s.current = some c) (hwf : s.wellFormed = true) :
    ∃ h s1, WrapObject s x = .ok (h, s1) ∧ UnwrapObject h = .ok x ∧
      ConvertFromV8 E h = .ok x ∧ s1.current = some c ∧ s1.wellFormed = true ∧
      ∃ h2 s2, WrapObject s1 x = .ok (h2, s2) ∧ UnwrapObject h2 = .ok x ∧
        ConvertFromV8 E h2 = .ok x ∧ s2.current = some c ∧ s2.wellFormed = true := by
  have hc1 : (GetObjectWrapperTemplate s).2.current = some c := by
    rw [GetObjectWrapperTemplate_current, hcur]
  have hw1 := (GetObjectWrapperTemplate_wellFormed s hwf).1
  have hc2 : (GetObjectWrapperTemplate (GetObjectWrapperTemplate s).2).2.current = some c := by
    rw [GetObjectWrapperTemplate_current, hc1]
  have hw2 := (GetObjectWrapperTemplate_wellFormed _ hw1).1
  refine ⟨_, _, WrapObject_eq s c x hcur hwf, ?_, ?_, hc1, hw1,
    _, _, WrapObject_eq _ c x hc1 hw1, ?_, ?_, hc2, hw2⟩ <;>
    simp [UnwrapObject, ConvertFromV8, JavascriptExternal.GetObject]

/-- The instance of C6 at the host object `Widget#3`, wrapped twice in context 1. -/
theorem UnwrapObject_WrapObject_witness :
    ∃ h s1, WrapObject exampleStatics (.object "Widget" 3) = .ok (h, s1) ∧
      UnwrapObject h = .ok (.object "Widget" 3) ∧
      ConvertFromV8 (exampleCollaborators []) h = .ok (.object "Widget" 3) ∧
      s1.current = some ⟨1⟩ ∧ s1.wellFormed = true ∧
      ∃ h2 s2, WrapObject s1 (.object "Widget" 3) = .ok (h2, s2) ∧
        UnwrapObject h2 = .ok (.object "Widget" 3) ∧
        ConvertFromV8 (exampleCollaborators []) h2 = .ok (.object "Widget" 3) ∧
        s2.current = some ⟨1⟩ ∧ s2.wellFormed = true :=
  UnwrapObject_WrapObject (exampleCollaborators []) exampleStatics ⟨1⟩ (.object "Widget" 3)
    rfl rfl

/-! ## Numbers, dates and the wrapper registry -/

/-- C13, as amended. Date anchor arithmetic: for every integral millisecond count `ms`
whose instant lies within the range of the host `DateTime`, `ConvertDateFromV8` yields,
before the local-time adjustment, the instant whose tick count is the ticks of the anchor
plus `10000 * ms`; the anchor is 1970-01-02, one day (86,400,000 ms) after the Unix
epoch 1970-01-01, so that `ms = 0` is midnight at the anchor and not the Unix epoch. -/
theorem ConvertDateFromV8_anchor (E : Collaborators) (ms : Int) (h : dateInRange ms = true) :
    ConvertDateFromV8 E ms =
      .ok (.dateTime (E.ToLocalTime (DateToTicks 1970 1 2 + 10000 * ms))) ∧
    DateToTicks 1970 1 2 = DateToTicks 1970 1 1 + 86400000 * TicksPerMillisecond ∧
    ConvertDateFromV8 E 0 = .ok (.dateTime (E.ToLocalTime (DateToTicks 1970 1 2))) ∧
    DateToTicks 1970 1 2 ≠ DateToTicks 1970 1 1 := by
  refine ⟨?_, by decide, ?_, by decide⟩
  · rw [ConvertDateFromV8_of_inRange E ms h]
    simp only [TicksPerMillisecond]
    congr 3
    ring
  · rw [ConvertDateFromV8_of_inRange E 0 (by decide)]
    simp

/-- The instance of amended C13 at one second past the anchor, with the local time zone
UTC: the ticks are those of 1970-01-02T00:00:01. -/
theorem ConvertDateFromV8_anchor_witness :
    ConvertDateFromV8 (exampleCollaborators []) 1000 =
      .ok (.dateTime (DateToTicks 1970 1 2 + 10000 * 1000)) ∧
    DateToTicks 1970 1 2 = DateToTicks 1970 1 1 + 86400000 * TicksPerMillisecond ∧
    ConvertDateFromV8 (exampleCollaborators []) 0 = .ok (.dateTime (DateToTicks 1970 1 2)) ∧
    DateToTicks 1970 1 2 ≠ DateToTicks 1970 1 1 :=
  ConvertDateFromV8_anchor (exampleCollaborators []) 1000 (by decide)

/-- C13 fails as stated: the script date of time value -10^14 ms (in the year -1199) has
no host instant, the tick count being negative, and `ConvertDateFromV8` raises
`ArgumentOutOfRangeException`. -/
theorem ConvertDateFromV8_before_MinValue_raises :
    DateToTicks 1970 1 2 + 10000 * (-100000000000000) < 0 ∧
    ConvertDateFromV8 (exampleCollaborators []) (-100000000000000) =
      .error (.exception argumentOutOfRangeException) := by
  refine ⟨by decide, ?_⟩
  rfl

/-- C14. `WrapObject` requires a context: with no current context it raises the exception
"No context currently active." and produces no proxy; with a current context it returns
a new proxy, an instance of the wrapper template, whose single internal slot holds the
token the context returned for the object. -/
theorem WrapObject_requires_context (s : Statics) (iObject : HostValue)
    (hwf : s.wellFormed = true) :
    WrapObject s iObject =
      (match s.current with
        | none => .error (.exception noContextException)
        | some context =>
          .ok (.object [.external (context.WrapObject iObject)] [],
            (GetObjectWrapperTemplate s).2)) ∧
    noContextException.message = "No context currently active." ∧
    NewInstance (GetObjectWrapperTemplate s).1 = .object [.undefined] [] := by
  obtain ⟨_, h1⟩ := GetObjectWrapperTemplate_wellFormed s hwf
  refine ⟨?_, rfl, by simp [NewInstance, h1]⟩
  cases h : s.current with
  | none => simp [WrapObject, h]
  | some context =>
    rw [WrapObject_eq s context iObject h hwf]
    rfl

/-- The instance of C14 at the host object `Widget#3` with no context current. -/
theorem WrapObject_requires_context_witness :
    WrapObject (exampleStatics.withCurrent none) (.object "Widget" 3) =
      .error (.exception noContextException) ∧
    noContextException.message = "No context currently active." ∧
    NewInstance (GetObjectWrapperTemplate (exampleStatics.withCurrent none)).1 =
      .object [.undefined] [] :=
  WrapObject_requires_context (exampleStatics.withCurrent none) (.object "Widget" 3) rfl

/-- What `UnwrapObject` does on the inputs it checks for: a proxy whose internal field 0
is an external yields the held reference, a raw external yields its payload, and an
object without internal field, like every value that is neither an object nor an
external, yields `nullptr`. -/
theorem UnwrapObject_checked_inputs :
    (∀ wrapper rest properties,
      UnwrapObject (.object (.external wrapper :: rest) properties) = .ok wrapper.GetObject) ∧
    (∀ wrapper, UnwrapObject (.external wrapper) = .ok wrapper.GetObject) ∧
    (∀ properties, UnwrapObject (.object [] properties) = .ok .null) ∧
    UnwrapObject .undefined = .ok .null ∧ UnwrapObject .null = .ok .null ∧
    (∀ b, UnwrapObject (.boolean b) = .ok .null) ∧
    (∀ n, UnwrapObject (.int32 n) = .ok .null) ∧
    (∀ x, UnwrapObject (.number x) = .ok .null) ∧
    (∀ str, UnwrapObject (.string str) = .ok .null) ∧
    (∀ elements, UnwrapObject (.array elements) = .ok .null) ∧
    (∀ ms, UnwrapObject (.date ms) = .ok .null) ∧
    (∀ callback data properties,
      UnwrapObject (.function callback data properties) = .ok .null) := by
  refine ⟨?_, ?_, ?_, rfl, rfl, ?_, ?_, ?_, ?_, ?_, ?_, ?_⟩ <;> intros <;>
    simp [UnwrapObject]

/-- C15 at the failing input: an object with one internal field that holds no external
(here a field never set, and a field holding a string) does not unwrap to `nullptr`; the
field is cast to an external without a check and read through. -/
theorem UnwrapObject_unexpected_slot_crashes :
    UnwrapObject (.object [.undefined] []) = .error .crash ∧
    UnwrapObject (.object [.string "token"] []) = .error .crash ∧
    UnwrapObject (.object [.undefined] []) ≠ .ok .null := by
  refine ⟨rfl, rfl, ?_⟩
  intro h
  cases h

/-- C16, what the code does. When the host callable bound to a script function raises
during `DynamicInvoke`, `DelegateInvoker` does not catch the exception: it leaves the
function as a host exception, nothing being passed to the script engine's exception
channel. -/
theorem DelegateInvoker_lets_exception_escape (E : Collaborators) (s : Statics) (k target : Nat)
    (info : List Value) (args : List HostValue) (e : SystemException)
    (hargs : ConvertArrayFromV8 E info = .ok args)
    (hraise : E.DynamicInvoke target args = .error e) :
    DelegateInvoker E s ⟨.external ⟨k, .delegate target⟩, info⟩ = .error (.exception e) := by
  simp [DelegateInvoker, hargs, JavascriptExternal.GetObject, hraise]

/-- C16 at the failing input: a delegate raising `ArgumentException("bad arg")`, bound by
`ConvertFromSystemDelegate` and called from a script with a context current, makes
`DelegateInvoker` end with the uncaught `TargetInvocationException`, where `Invoker`
returns with the exception passed to the script. -/
theorem DelegateInvoker_bad_arg_escapes :
    ConvertFromSystemDelegate exampleStatics (.delegate 4) =
      .ok (.function .DelegateInvoker (.external ⟨1, .delegate 4⟩) []) ∧
    DelegateInvoker (exampleDelegateCollaborators (failingDelegate "bad arg")) exampleStatics
        ⟨.external ⟨1, .delegate 4⟩, [.int32 0]⟩ =
      .error (.exception (targetInvocationException
        ⟨"System.ArgumentException", "bad arg", []⟩)) :=
  ⟨rfl, DelegateInvoker_lets_exception_escape
    (exampleDelegateCollaborators (failingDelegate "bad arg")) exampleStatics 1 4
    [.int32 0] [.int32 0] _ rfl rfl⟩

/-! ## The callable bridge and the proxy template -/

/-- `ConvertArrayFromV8` returns an array exactly when `ConvertFromV8` converts every
element, and the array then holds the converted elements in index order. -/
theorem ConvertArrayFromV8_eq_ok_iff (E : Collaborators) (elements : List Value) :
    ∀ results, ConvertArrayFromV8 E elements = .ok results ↔
      List.Forall₂ (fun v x => ConvertFromV8 E v = .ok x) elements results := by
  induction elements with
  | nil =>
    intro results
    simp only [ConvertArrayFromV8, Except.ok.injEq, List.forall₂_nil_left_iff]
    exact eq_comm
  | cons v rest ih =>
    intro results
    simp only [ConvertArrayFromV8]
    constructor
    · intro h
      cases h1 : ConvertFromV8 E v with
      | error f => simp [h1] at h
      | ok x =>
        cases h2 : ConvertArrayFromV8 E rest with
        | error f => simp [h1, h2] at h
        | ok xs =>
          simp only [h1, h2, Except.ok.injEq] at h
          subst h
          exact List.Forall₂.cons h1 ((ih xs).1 h2)
    · intro h
      cases h with
      | cons hx hxs =>
        rw [hx, (ih _).2 hxs]

/-- C17. Callable bridge invocation: for every host callable and every script argument
list, with a context current, `ConvertFromSystemDelegate` returns a function bound to
`DelegateInvoker`, and invoking it converts the supplied arguments by `ConvertFromV8`,
each on its own and in the supplied order, calls the callable once with exactly these
converted arguments, and returns `ConvertToV8` of its result; a failure of any of these
steps is the failure of the invocation. -/
theorem DelegateInvoker_invokes_callable (E : Collaborators) (s : Statics)
    (context : JavascriptContext) (target : Nat) (info : List Value)
    (hcur : s.current = some context) :
    ∃ data, ConvertFromSystemDelegate s (.delegate target) =
        .ok (.function .DelegateInvoker data []) ∧
      DelegateInvoker E s ⟨data, info⟩ =
        (match ConvertArrayFromV8 E info with
          | .error f => .error f
          | .ok args =>
            match E.DynamicInvoke target args with
            | .error e => .error (.exception e)
            | .ok value => ConvertToV8 E s value) ∧
      ∀ args, ConvertArrayFromV8 E info = .ok args ↔
        (args.length = info.length ∧
          List.Forall₂ (fun a x => ConvertFromV8 E a = .ok x) info args) := by
  refine ⟨.external (context.WrapObject (.delegate target)), ?_, ?_, ?_⟩
  · simp [ConvertFromSystemDelegate, hcur]
  · simp only [DelegateInvoker, JavascriptContext.WrapObject, JavascriptExternal.GetObject]
  · intro args
    rw [ConvertArrayFromV8_eq_ok_iff]
    constructor
    · intro h
      exact ⟨h.length_eq.symm, h⟩
    · intro h
      exact h.2

/-- The instance of C17 at the delegate `(a, b) => a + b` called from a script with
`(2, 3)`: the invocation returns the script `Int32` 5. -/
theorem DelegateInvoker_invokes_callable_witness :
    ∃ data, ConvertFromSystemDelegate exampleStatics (.delegate 4) =
        .ok (.function .DelegateInvoker data []) ∧
      DelegateInvoker (exampleDelegateCollaborators addDelegate) exampleStatics
          ⟨data, [.int32 2, .int32 3]⟩ = .ok (.int32 5, exampleStatics) ∧
      ∀ args, ConvertArrayFromV8 (exampleDelegateCollaborators addDelegate)
          [.int32 2, .int32 3] = .ok args ↔
        (args.length = [Value.int32 2, Value.int32 3].length ∧
          List.Forall₂ (fun a x =>
            ConvertFromV8 (exampleDelegateCollaborators addDelegate) a = .ok x)
            [.int32 2, .int32 3] args) :=
  DelegateInvoker_invokes_callable (exampleDelegateCollaborators addDelegate) exampleStatics
    ⟨1⟩ 4 [.int32 2, .int32 3] rfl

/-- C18, as amended. Proxy template scoping: the proxy template is created lazily by the
first wrap, under whatever context is current then, and stored in the process-wide
static; every later wrap, in the same context or after a switch to any other context,
reuses that same template and creates none. -/
theorem GetObjectWrapperTemplate_is_process_wide (s : Statics) (context : JavascriptContext)
    (iObject : HostValue) (hnone : s.sObjectWrapperTemplate = none)
    (hcur : s.current = some context) :
    ∃ proxy templ s1, WrapObject s iObject = .ok (proxy, s1) ∧
      s1.sObjectWrapperTemplate = some templ ∧ templ.id = s.templatesCreated ∧
      s1.templatesCreated = s.templatesCreated + 1 ∧
      ∀ (other : JavascriptContext) (later : HostValue),
        GetObjectWrapperTemplate (s1.withCurrent (some other)) =
          (templ, s1.withCurrent (some other)) ∧
        ∃ proxy2, WrapObject (s1.withCurrent (some other)) later =
          .ok (proxy2, s1.withCurrent (some other)) := by
  refine ⟨.object [.external ⟨context.id, iObject⟩] [],
    { id := s.templatesCreated, internalFieldCount := 1,
      namedPropertyHandler := true, indexedPropertyHandler := true },
    (GetObjectWrapperTemplate s).2, ?_, ?_, rfl, ?_, ?_⟩
  · exact WrapObject_eq s context iObject hcur (by simp [Statics.wellFormed, hnone])
  · simp [GetObjectWrapperTemplate, hnone]
  · simp [GetObjectWrapperTemplate, hnone]
  · intro other later
    have h1 : GetObjectWrapperTemplate ((GetObjectWrapperTemplate s).2.withCurrent (some other)) =
        ({ id := s.templatesCreated, internalFieldCount := 1,
           namedPropertyHandler := true, indexedPropertyHandler := true },
          (GetObjectWrapperTemplate s).2.withCurrent (some other)) := by
      simp [GetObjectWrapperTemplate, hnone, Statics.withCurrent]
    refine ⟨h1, .object [.external ⟨other.id, later⟩] [], ?_⟩
    rw [WrapObject_eq _ other later rfl (by simp [Statics.wellFormed, Statics.withCurrent,
      GetObjectWrapperTemplate, hnone]), h1]

/-- The instance of amended C18 at the example state: the first wrap, in context 1,
creates template 0. -/
theorem GetObjectWrapperTemplate_is_process_wide_witness :
    ∃ proxy templ s1, WrapObject exampleStatics (.object "Widget" 3) = .ok (proxy, s1) ∧
      s1.sObjectWrapperTemplate = some templ ∧ templ.id = exampleStatics.templatesCreated ∧
      s1.templatesCreated = exampleStatics.templatesCreated + 1 ∧
      ∀ (other : JavascriptContext) (later : HostValue),
        GetObjectWrapperTemplate (s1.withCurrent (some other)) =
          (templ, s1.withCurrent (some other)) ∧
        ∃ proxy2, WrapObject (s1.withCurrent (some other)) later =
          .ok (proxy2, s1.withCurrent (some other)) :=
  GetObjectWrapperTemplate_is_process_wide exampleStatics ⟨1⟩ (.object "Widget" 3) rfl rfl

/-- C18 fails as stated: after a first call under context 1 and a switch to the fresh
context 2, `GetObjectWrapperTemplate` returns the template created under context 1, and
no second template has been created. -/
theorem GetObjectWrapperTemplate_survives_context_switch :
    (GetObjectWrapperTemplate
        ((GetObjectWrapperTemplate exampleStatics).2.withCurrent (some ⟨2⟩))).1 =
      (GetObjectWrapperTemplate exampleStatics).1 ∧
    (GetObjectWrapperTemplate
        ((GetObjectWrapperTemplate exampleStatics).2.withCurrent (some ⟨2⟩))).2.templatesCreated =
      1 :=
  ⟨rfl, rfl⟩

/-! ## The early exit and null arguments -/

/-- No overload can score above the number of supplied arguments: once the best score has
reached it, the scan without the early exit changes nothing. -/
theorem lookForBestMatchingMethodWithoutBreak_of_full (E : Collaborators)
    (suppliedArguments : List HostValue) (methods : List MethodInfo) :
    ∀ best : BestMatch, (suppliedArguments.length : Int) ≤ best.bestMethodMatchedArgs →
      lookForBestMatchingMethodWithoutBreak E suppliedArguments.length suppliedArguments
        (methods.map MemberInfo.method) best = .ok best := by
  induction methods with
  | nil =>
    intro best _
    simp [lookForBestMatchingMethodWithoutBreak]
  | cons m rest ih =>
    intro best hbest
    simp only [List.map_cons, lookForBestMatchingMethodWithoutBreak]
    by_cases hlen : suppliedArguments.length = m.GetParameters.length
    · simp only [hlen, if_true]
      by_cases hf : (matchParameters E (suppliedArguments.zip m.GetParameters)).failed > 0
      · simp only [hf, if_true]
        rw [← hlen]
        exact ih best hbest
      · have hf0 : (matchParameters E (suppliedArguments.zip m.GetParameters)).failed = 0 := by
          omega
        have hco := (matchParameters_failed E _).1 hf0
        obtain ⟨hcount, _⟩ := matchParameters_of_coercible E _ hco
        have hle := exactMatches_le (suppliedArguments.zip m.GetParameters)
        have hzip : (suppliedArguments.zip m.GetParameters).length = suppliedArguments.length := by
          simp [List.length_zip, hlen]
        have hnot : ¬ ((matchParameters E (suppliedArguments.zip m.GetParameters)).matchCount : Int) >
            best.bestMethodMatchedArgs := by
          rw [hcount]
          omega
        simp only [hf, if_false, hnot]
        rw [← hlen]
        exact ih best hbest
    · simp only [hlen, if_false]
      exact ih best hbest

/-- C19. Early stop is sound: for every overload list and argument list, and from any
state of the best method, the scan of `Invoker` with its early exit ends in the same
state, the same method with the same coerced argument array, as the scan that examines
every overload. -/
theorem lookForBestMatchingMethod_eq_withoutBreak (E : Collaborators)
    (suppliedArguments : List HostValue) (methods : List MethodInfo) (best : BestMatch) :
    lookForBestMatchingMethod E suppliedArguments.length suppliedArguments
        (methods.map MemberInfo.method) best =
      lookForBestMatchingMethodWithoutBreak E suppliedArguments.length suppliedArguments
        (methods.map MemberInfo.method) best := by
  induction methods generalizing best with
  | nil => simp [lookForBestMatchingMethod, lookForBestMatchingMethodWithoutBreak]
  | cons m rest ih =>
    simp only [List.map_cons, lookForBestMatchingMethod, lookForBestMatchingMethodWithoutBreak]
    by_cases hlen : suppliedArguments.length = m.GetParameters.length
    · simp only [hlen, if_true]
      by_cases hf : (matchParameters E (suppliedArguments.zip m.GetParameters)).failed > 0
      · simp only [hf, if_true]
        rw [← hlen]
        exact ih best
      · simp only [hf, if_false]
        by_cases hfull : (matchParameters E (suppliedArguments.zip m.GetParameters)).matchCount =
            (matchParameters E (suppliedArguments.zip m.GetParameters)).arguments.length
        · simp only [hfull, if_true]
          rw [← hlen]
          symm
          apply lookForBestMatchingMethodWithoutBreak_of_full
          have halen := matchParameters_length E (suppliedArguments.zip m.GetParameters)
          have hzip : (suppliedArguments.zip m.GetParameters).length =
              suppliedArguments.length := by
            simp [List.length_zip, hlen]
          split
          · simp only
            omega
          · omega
        · simp only [hfull, if_false]
          rw [← hlen]
          exact ih _
    · simp only [hlen, if_false]
      exact ih best

theorem matchParameters_congr (E E1 : Collaborators)
    (hagree : ∀ v t, v.isNull = false → E.ConvertToType v t = E1.ConvertToType v t)
    (pairs : List (HostValue × SystemType)) :
    matchParameters E pairs = matchParameters E1 pairs := by
  induction pairs with
  | nil => simp [matchParameters]
  | cons p rest ih =>
    obtain ⟨a, t⟩ := p
    by_cases h1 : a.isNull = true
    · simp only [matchParameters, h1, if_true, ih]
    · simp only [Bool.not_eq_true] at h1
      simp only [matchParameters, h1, Bool.false_eq_true, if_false, ih, hagree a t h1]

theorem matchParameters_matchCount_le (E : Collaborators)
    (pairs : List (HostValue × SystemType)) :
    (matchParameters E pairs).matchCount ≤ pairs.countP (fun p => !p.1.isNull) := by
  induction pairs with
  | nil => simp [matchParameters]
  | cons p rest ih =>
    obtain ⟨a, t⟩ := p
    by_cases h1 : a.isNull = true
    · simp only [matchParameters, h1, if_true]
      simp only [List.countP_cons, h1, Bool.not_true, Bool.false_eq_true, if_false]
      omega
    · simp only [Bool.not_eq_true] at h1
      simp only [matchParameters, h1, Bool.false_eq_true, if_false, List.countP_cons,
        Bool.not_false, if_true]
      by_cases h2 : (E.ConvertToType a t).isNull = true
      · by_cases hty : GetType a = some t <;> simp [h2, hty]
      · by_cases hty : GetType a = some t <;> simp [h2, hty] <;> omega

theorem matchParameters_skip_null (E : Collaborators) (t : SystemType)
    (post : List (HostValue × SystemType)) :
    ∀ pre : List (HostValue × SystemType),
      (matchParameters E (pre ++ (.null, t) :: post)).failed =
          (matchParameters E (pre ++ post)).failed ∧
        (matchParameters E (pre ++ (.null, t) :: post)).matchCount =
          (matchParameters E (pre ++ post)).matchCount ∧
        (matchParameters E (pre ++ (.null, t) :: post)).arguments.get? pre.length =
          some .null := by
  intro pre
  induction pre with
  | nil => simp [matchParameters, HostValue.isNull]
  | cons p rest ih =>
    obtain ⟨a, u⟩ := p
    obtain ⟨ih1, ih2, ih3⟩ := ih
    by_cases h1 : a.isNull = true
    · simp only [List.cons_append, matchParameters, h1, if_true, List.append_eq, ih1, ih2,
        List.length_cons, List.get?_cons_succ, ih3, and_self]
    · simp only [Bool.not_eq_true] at h1
      by_cases h2 : (E.ConvertToType a u).isNull = true
      · simp only [List.cons_append, matchParameters, h1, Bool.false_eq_true, if_false, h2,
          if_true, List.append_eq, List.length_cons, List.get?_cons_succ, true_and]
        rw [List.get?_eq_getElem?, List.getElem?_replicate]
        simp
      · simp only [List.cons_append, matchParameters, h1, Bool.false_eq_true, if_false, h2,
          List.append_eq, ih1, ih2, List.length_cons, List.get?_cons_succ, ih3, and_self]

/-- C20. Null arguments in dispatch: for every overload of matching parameter count, an
argument that is the host null reference is never passed to `ConvertToType` (the outcome
is the same for any two coercion functions that agree on the other values), never causes
the overload to be discarded and never adds to the match score (both are what they are
without that argument), and is passed on as null whatever the declared parameter type;
and the overload never triggers the early exit, its score staying below the number of
arguments. -/
theorem matchParameters_null_argument (E E1 : Collaborators)
    (pre post : List (HostValue × SystemType)) (t : SystemType)
    (hagree : ∀ v u, v.isNull = false → E.ConvertToType v u = E1.ConvertToType v u) :
    matchParameters E (pre ++ (.null, t) :: post) =
        matchParameters E1 (pre ++ (.null, t) :: post) ∧
      (matchParameters E (pre ++ (.null, t) :: post)).failed =
        (matchParameters E (pre ++ post)).failed ∧
      (matchParameters E (pre ++ (.null, t) :: post)).matchCount =
        (matchParameters E (pre ++ post)).matchCount ∧
      (matchParameters E (pre ++ (.null, t) :: post)).arguments.get? pre.length = some .null ∧
      (matchParameters E (pre ++ (.null, t) :: post)).matchCount <
        (matchParameters E (pre ++ (.null, t) :: post)).arguments.length := by
  obtain ⟨h1, h2, h3⟩ := matchParameters_skip_null E t post pre
  refine ⟨matchParameters_congr E E1 hagree _, h1, h2, h3, ?_⟩
  rw [matchParameters_length]
  have hle := matchParameters_matchCount_le E (pre ++ (.null, t) :: post)
  have hlt : (pre ++ (HostValue.null, t) :: post).countP (fun p => !p.1.isNull) <
      (pre ++ (HostValue.null, t) :: post).length := by
    have h4 := List.countP_le_length (fun p : HostValue × SystemType => !p.1.isNull) (l := pre)
    have h5 := List.countP_le_length (fun p : HostValue × SystemType => !p.1.isNull) (l := post)
    have h6 : ¬ ((fun p : HostValue × SystemType => !p.1.isNull) (HostValue.null, t) = true) := by
      simp [HostValue.isNull]
    have h7 : List.countP (fun p : HostValue × SystemType => !p.1.isNull)
        ((HostValue.null, t) :: post) =
        List.countP (fun p : HostValue × SystemType => !p.1.isNull) post :=
      List.countP_cons_of_neg (p := fun p : HostValue × SystemType => !p.1.isNull) post h6
    rw [List.countP_append, List.length_append, h7, List.length_cons]
    omega
  omega

/-- The instance of C20 at `Foo(Int32, String)` called with `(7, null)`: the overload is
kept with score 1 of 2 and receives `(7, null)`, also with a coercion function that would
turn a null reference into something else. -/
theorem matchParameters_null_argument_witness :
    matchParameters (exampleCollaborators []) ([(.int32 7, .Int32)] ++ (.null, .String) :: []) =
        matchParameters { exampleCollaborators [] with
            ConvertToType := fun v u =>
              if v.isNull then .string "null" else exampleConvertToType v u }
          ([(.int32 7, .Int32)] ++ (.null, .String) :: []) ∧
      (matchParameters (exampleCollaborators [])
          ([(.int32 7, .Int32)] ++ (.null, .String) :: [])).failed =
        (matchParameters (exampleCollaborators []) ([(.int32 7, .Int32)] ++ [])).failed ∧
      (matchParameters (exampleCollaborators [])
          ([(.int32 7, .Int32)] ++ (.null, .String) :: [])).matchCount =
        (matchParameters (exampleCollaborators []) ([(.int32 7, .Int32)] ++ [])).matchCount ∧
      (matchParameters (exampleCollaborators [])
          ([(.int32 7, .Int32)] ++ (.null, .String) :: [])).arguments.get?
            [(HostValue.int32 7, SystemType.Int32)].length = some .null ∧
      (matchParameters (exampleCollaborators [])
          ([(.int32 7, .Int32)] ++ (.null, .String) :: [])).matchCount <
        (matchParameters (exampleCollaborators [])
          ([(.int32 7, .Int32)] ++ (.null, .String) :: [])).arguments.length :=
  matchParameters_null_argument (exampleCollaborators [])
    { exampleCollaborators [] with
        ConvertToType := fun v u =>
          if v.isNull then .string "null" else exampleConvertToType v u }
    [(.int32 7, .Int32)] [] .String
    (by
      intro v u hv
      simp [exampleCollaborators, hv])

/-! ## Arrays, element by element -/

theorem WrapObject_agree (s t s1 : Statics) (x : HostValue) (v : Value)
    (hcur : s.current = t.current) (hs : s.wellFormed = true) (ht : t.wellFormed = true)
    (h : WrapObject s x = .ok (v, s1)) :
    ∃ t1, WrapObject t x = .ok (v, t1) ∧ s1.current = s.current ∧ t1.current = t.current ∧
      s1.wellFormed = true ∧ t1.wellFormed = true := by
  cases hc : s.current with
  | none => simp [WrapObject, hc] at h
  | some c =>
    rw [WrapObject_eq s c x hc hs] at h
    simp only [Except.ok.injEq, Prod.mk.injEq] at h
    obtain ⟨rfl, rfl⟩ := h
    refine ⟨_, WrapObject_eq t c x (by rw [← hcur, hc]) ht, ?_, ?_, ?_, ?_⟩
    · rw [GetObjectWrapperTemplate_current, hc]
    · rw [GetObjectWrapperTemplate_current]
    · exact (GetObjectWrapperTemplate_wellFormed s hs).1
    · exact (GetObjectWrapperTemplate_wellFormed t ht).1

mutual

theorem ConvertToV8_agree (E : Collaborators) :
    ∀ (x : HostValue) (s t s1 : Statics) (v : Value), s.current = t.current →
      s.wellFormed = true → t.wellFormed = true → ConvertToV8 E s x = .ok (v, s1) →
      ∃ t1, ConvertToV8 E t x = .ok (v, t1) ∧ s1.current = s.current ∧
        t1.current = t.current ∧ s1.wellFormed = true ∧ t1.wellFormed = true
  | .null, s, t, s1, v, _, hs, ht, h => by
    simp only [ConvertToV8, Except.ok.injEq, Prod.mk.injEq] at h
    obtain ⟨rfl, rfl⟩ := h
    exact ⟨t, by simp only [ConvertToV8], rfl, rfl, hs, ht⟩
  | .boolean _, s, t, s1, v, _, hs, ht, h => by
    simp only [ConvertToV8, Except.ok.injEq, Prod.mk.injEq] at h
    obtain ⟨rfl, rfl⟩ := h
    exact ⟨t, by simp only [ConvertToV8], rfl, rfl, hs, ht⟩
  | .int16 _, _, _, _, _, _, _, _, h => by simp [ConvertToV8] at h
  | .int32 _, s, t, s1, v, _, hs, ht, h => by
    simp only [ConvertToV8, Except.ok.injEq, Prod.mk.injEq] at h
    obtain ⟨rfl, rfl⟩ := h
    exact ⟨t, by simp only [ConvertToV8], rfl, rfl, hs, ht⟩
  | .single _, s, t, s1, v, _, hs, ht, h => by
    simp only [ConvertToV8, Except.ok.injEq, Prod.mk.injEq] at h
    obtain ⟨rfl, rfl⟩ := h
    exact ⟨t, by simp only [ConvertToV8], rfl, rfl, hs, ht⟩
  | .double _, s, t, s1, v, _, hs, ht, h => by
    simp only [ConvertToV8, Except.ok.injEq, Prod.mk.injEq] at h
    obtain ⟨rfl, rfl⟩ := h
    exact ⟨t, by simp only [ConvertToV8], rfl, rfl, hs, ht⟩
  | .string _, s, t, s1, v, _, hs, ht, h => by
    simp only [ConvertToV8, Except.ok.injEq, Prod.mk.injEq] at h
    obtain ⟨rfl, rfl⟩ := h
    exact ⟨t, by simp only [ConvertToV8], rfl, rfl, hs, ht⟩
  | .dateTime _, s, t, s1, v, _, hs, ht, h => by
    simp only [ConvertToV8, Except.ok.injEq, Prod.mk.injEq] at h
    obtain ⟨rfl, rfl⟩ := h
    exact ⟨t, by simp only [ConvertToV8], rfl, rfl, hs, ht⟩
  | .array elements, s, t, s1, v, hcur, hs, ht, h => by
    simp only [ConvertToV8] at h
    cases hr : ConvertFromSystemArray E s elements with
    | error f => simp [hr] at h
    | ok r =>
      obtain ⟨vs, s2⟩ := r
      simp only [hr, Except.ok.injEq, Prod.mk.injEq] at h
      obtain ⟨rfl, rfl⟩ := h
      obtain ⟨t1, h1, h2⟩ := ConvertFromSystemArray_agree E elements s t s2 vs hcur hs ht hr
      exact ⟨t1, by simp only [ConvertToV8, h1], h2⟩
  | .delegate target, s, t, s1, v, hcur, hs, ht, h => by
    simp only [ConvertToV8, ConvertFromSystemDelegate] at h
    cases hc : s.current with
    | none => simp [hc] at h
    | some c =>
      simp only [hc, Except.ok.injEq, Prod.mk.injEq] at h
      obtain ⟨rfl, rfl⟩ := h
      have hc1 : t.current = some c := by rw [← hcur, hc]
      exact ⟨t, by simp only [ConvertToV8, ConvertFromSystemDelegate, hc1], hc, rfl, hs, ht⟩
  | .dictionary entries, s, t, s1, v, hcur, hs, ht, h => by
    simp only [ConvertToV8] at h
    cases hr : ConvertFromSystemDictionary E s entries [] with
    | error f => simp [hr] at h
    | ok r =>
      obtain ⟨ps, s2⟩ := r
      simp only [hr, Except.ok.injEq, Prod.mk.injEq] at h
      obtain ⟨rfl, rfl⟩ := h
      obtain ⟨t1, h1, h2⟩ :=
        ConvertFromSystemDictionary_agree E entries s t s2 [] ps hcur hs ht hr
      exact ⟨t1, by simp only [ConvertToV8, h1], h2⟩
  | .list elements, s, t, s1, v, hcur, hs, ht, h => by
    simp only [ConvertToV8] at h
    cases hr : ConvertFromSystemList E s elements with
    | error f => simp [hr] at h
    | ok r =>
      obtain ⟨vs, s2⟩ := r
      simp only [hr, Except.ok.injEq, Prod.mk.injEq] at h
      obtain ⟨rfl, rfl⟩ := h
      obtain ⟨t1, h1, h2⟩ := ConvertFromSystemList_agree E elements s t s2 vs hcur hs ht hr
      exact ⟨t1, by simp only [ConvertToV8, h1], h2⟩
  | .object typeName ref, s, t, s1, v, hcur, hs, ht, h => by
    simp only [ConvertToV8] at h ⊢
    exact WrapObject_agree s t s1 _ v hcur hs ht h
  | .exception e, s, t, s1, v, hcur, hs, ht, h => by
    simp only [ConvertToV8] at h ⊢
    exact WrapObject_agree s t s1 _ v hcur hs ht h

theorem ConvertFromSystemArray_agree (E : Collaborators) :
    ∀ (elements : List HostValue) (s t s1 : Statics) (vs : List Value),
      s.current = t.current → s.wellFormed = true → t.wellFormed = true →
      ConvertFromSystemArray E s elements = .ok (vs, s1) →
      ∃ t1, ConvertFromSystemArray E t elements = .ok (vs, t1) ∧ s1.current = s.current ∧
        t1.current = t.current ∧ s1.wellFormed = true ∧ t1.wellFormed = true
  | [], s, t, s1, vs, _, hs, ht, h => by
    simp only [ConvertFromSystemArray, Except.ok.injEq, Prod.mk.injEq] at h
    obtain ⟨rfl, rfl⟩ := h
    exact ⟨t, by simp only [ConvertFromSystemArray], rfl, rfl, hs, ht⟩
  | element :: rest, s, t, s1, vs, hcur, hs, ht, h => by
    simp only [ConvertFromSystemArray] at h
    cases hx : ConvertToV8 E s element with
    | error f => simp [hx] at h
    | ok r =>
      obtain ⟨v, s2⟩ := r
      simp only [hx] at h
      by_cases hv : v.IsEmpty = true
      · simp [hv] at h
      · simp only [hv, Bool.false_eq_true, if_false] at h
        cases hr : ConvertFromSystemArray E s2 rest with
        | error f => simp [hr] at h
        | ok r2 =>
          obtain ⟨vs2, s3⟩ := r2
          simp only [hr, Except.ok.injEq, Prod.mk.injEq] at h
          obtain ⟨rfl, rfl⟩ := h
          obtain ⟨t2, h1, hc1, hc2, hw1, hw2⟩ :=
            ConvertToV8_agree E element s t s2 v hcur hs ht hx
          obtain ⟨t3, h2, hc3, hc4, hw3, hw4⟩ :=
            ConvertFromSystemArray_agree E rest s2 t2 s3 vs2
              (by rw [hc1, hc2, hcur]) hw1 hw2 hr
          exact ⟨t3, by simp only [ConvertFromSystemArray, h1, hv, Bool.false_eq_true,
            if_false, h2], by rw [hc3, hc1], by rw [hc4, hc2], hw3, hw4⟩

theorem ConvertFromSystemList_agree (E : Collaborators) :
    ∀ (elements : List HostValue) (s t s1 : Statics) (vs : List Value),
      s.current = t.current → s.wellFormed = true → t.wellFormed = true →
      ConvertFromSystemList E s elements = .ok (vs, s1) →
      ∃ t1, ConvertFromSystemList E t elements = .ok (vs, t1) ∧ s1.current = s.current ∧
        t1.current = t.current ∧ s1.wellFormed = true ∧ t1.wellFormed = true
  | [], s, t, s1, vs, _, hs, ht, h => by
    simp only [ConvertFromSystemList, Except.ok.injEq, Prod.mk.injEq] at h
    obtain ⟨rfl, rfl⟩ := h
    exact ⟨t, by simp only [ConvertFromSystemList], rfl, rfl, hs, ht⟩
  | element :: rest, s, t, s1, vs, hcur, hs, ht, h => by
    simp only [ConvertFromSystemList] at h
    cases hx : ConvertToV8 E s element with
    | error f => simp [hx] at h
    | ok r =>
      obtain ⟨v, s2⟩ := r
      simp only [hx] at h
      by_cases hv : v.IsEmpty = true
      · simp [hv] at h
      · simp only [hv, Bool.false_eq_true, if_false] at h
        cases hr : ConvertFromSystemList E s2 rest with
        | error f => simp [hr] at h
        | ok r2 =>
          obtain ⟨vs2, s3⟩ := r2
          simp only [hr, Except.ok.injEq, Prod.mk.injEq] at h
          obtain ⟨rfl, rfl⟩ := h
          obtain ⟨t2, h1, hc1, hc2, hw1, hw2⟩ :=
            ConvertToV8_agree E element s t s2 v hcur hs ht hx
          obtain ⟨t3, h2, hc3, hc4, hw3, hw4⟩ :=
            ConvertFromSystemList_agree E rest s2 t2 s3 vs2
              (by rw [hc1, hc2, hcur]) hw1 hw2 hr
          exact ⟨t3, by simp only [ConvertFromSystemList, h1, hv, Bool.false_eq_true,
            if_false, h2], by rw [hc3, hc1], by rw [hc4, hc2], hw3, hw4⟩

theorem ConvertFromSystemDictionary_agree (E : Collaborators) :
    ∀ (entries : List (HostValue × HostValue)) (s t s1 : Statics)
      (properties ps : List (PropertyKey × Value)),
      s.current = t.current → s.wellFormed = true → t.wellFormed = true →
      ConvertFromSystemDictionary E s entries properties = .ok (ps, s1) →
      ∃ t1, ConvertFromSystemDictionary E t entries properties = .ok (ps, t1) ∧
        s1.current = s.current ∧ t1.current = t.current ∧
        s1.wellFormed = true ∧ t1.wellFormed = true
  | [], s, t, s1, properties, ps, _, hs, ht, h => by
    simp only [ConvertFromSystemDictionary, Except.ok.injEq, Prod.mk.injEq] at h
    obtain ⟨rfl, rfl⟩ := h
    exact ⟨t, by simp only [ConvertFromSystemDictionary], rfl, rfl, hs, ht⟩
  | (key, value) :: rest, s, t, s1, properties, ps, hcur, hs, ht, h => by
    simp only [ConvertFromSystemDictionary] at h
    cases hk : ConvertToV8 E s key with
    | error f => simp [hk] at h
    | ok r =>
      obtain ⟨k, s2⟩ := r
      simp only [hk] at h
      cases hval : ConvertToV8 E s2 value with
      | error f => simp [hval] at h
      | ok r2 =>
        obtain ⟨val, s3⟩ := r2
        simp only [hval] at h
        cases hset : objectSet E properties k val with
        | error f => simp [hset] at h
        | ok properties1 =>
          simp only [hset] at h
          obtain ⟨t2, h1, hc1, hc2, hw1, hw2⟩ := ConvertToV8_agree E key s t s2 k hcur hs ht hk
          obtain ⟨t3, h2, hc3, hc4, hw3, hw4⟩ :=
            ConvertToV8_agree E value s2 t2 s3 val (by rw [hc1, hc2, hcur]) hw1 hw2 hval
          obtain ⟨t4, h3, hc5, hc6, hw5, hw6⟩ :=
            ConvertFromSystemDictionary_agree E rest s3 t3 s1 properties1 ps
              (by rw [hc3, hc4, hc1, hc2, hcur]) hw3 hw4 h
          exact ⟨t4, by simp only [ConvertFromSystemDictionary, h1, h2, hset, h3],
            by rw [hc5, hc3, hc1], by rw [hc6, hc4, hc2], hw5, hw6⟩

end

end JavascriptInterop
